import Mathlib

/-!
Shallow embedding of the asteroids game core: the entity classes
(GameObject, Ship, Asteroid, Bullet from the game-objects module) and the
Game class (state machine, input handling, per-frame update and collision
resolution).  Real-valued program quantities are modelled by `ℝ`; each
`Math.random()` draw is modelled by reading the next element of an explicit
stream of reals, threaded through every constructor that draws one.
-/

open scoped Classical

noncomputable section

/-- Two-dimensional vector, the `Vector2D` interface. -/
structure Vec2 where
  x : ℝ
  y : ℝ

/-- One axis of `GameObject.wrapPosition`: two sequential ifs,
`if (c < 0) c = bound; if (c > bound) c = 0;`. -/
def wrapCoord (bound c : ℝ) : ℝ :=
  let c1 := if c < 0 then bound else c
  if c1 > bound then 0 else c1

/-- Method `GameObject.wrapPosition`, applied per axis. -/
def wrapPosition (canvasSize p : Vec2) : Vec2 :=
  ⟨wrapCoord canvasSize.x p.x, wrapCoord canvasSize.y p.y⟩

/-- Euclidean distance as computed in `GameObject.collidesWith`:
`Math.sqrt(dx*dx + dy*dy)`. -/
def distBetween (p q : Vec2) : ℝ :=
  Real.sqrt ((p.x - q.x) * (p.x - q.x) + (p.y - q.y) * (p.y - q.y))

/-- State of the `Ship` class.  The field `rot` is the source's `rotation`;
`thrust` is its private thrust level. -/
structure Ship where
  position : Vec2
  velocity : Vec2
  rot : ℝ
  thrust : ℝ
  active : Bool

/-- Private constant `maxSpeed = 300` of `Ship`. -/
def Ship.maxSpeed : ℝ := 300

/-- Private constant `thrustPower = 400` of `Ship`. -/
def Ship.thrustPower : ℝ := 400

/-- Private constant `rotationSpeed = 5` of `Ship`. -/
def Ship.rotSpeed : ℝ := 5

/-- Private constant `friction = 0.98` of `Ship`. -/
def Ship.friction : ℝ := 0.98

/-- The `Ship` constructor: position (x, y), zero velocity, zero rotation,
zero thrust, active. -/
def Ship.init (x y : ℝ) : Ship :=
  ⟨⟨x, y⟩, ⟨0, 0⟩, 0, 0, true⟩

/-- Method `Ship.update(deltaTime, canvasSize)`: thrust gate (note the source
multiplies by `thrustPower * deltaTime` only, not by the thrust level), speed
clamp, friction, position integration, screen wrap. -/
def Ship.update (dt : ℝ) (canvasSize : Vec2) (s : Ship) : Ship :=
  let v0 : Vec2 :=
    if s.thrust > 0 then
      ⟨s.velocity.x + Real.sin s.rot * Ship.thrustPower * dt,
       s.velocity.y + -Real.cos s.rot * Ship.thrustPower * dt⟩
    else s.velocity
  let speed := Real.sqrt (v0.x * v0.x + v0.y * v0.y)
  let v1 : Vec2 :=
    if speed > Ship.maxSpeed then
      ⟨v0.x / speed * Ship.maxSpeed, v0.y / speed * Ship.maxSpeed⟩
    else v0
  let v2 : Vec2 := ⟨v1.x * Ship.friction, v1.y * Ship.friction⟩
  { s with
    velocity := v2
    position := wrapPosition canvasSize ⟨s.position.x + v2.x * dt, s.position.y + v2.y * dt⟩ }

/-- Method `Ship.setThrust`: clamp the argument into [0, 1]. -/
def Ship.setThrust (t : ℝ) (s : Ship) : Ship :=
  { s with thrust := max 0 (min 1 t) }

/-- Method `Ship.rotate(direction)`: add `direction * rotationSpeed * (1/60)`. -/
def Ship.rotate (dir : ℝ) (s : Ship) : Ship :=
  { s with rot := s.rot + dir * Ship.rotSpeed * (1 / 60) }

/-- Method `Ship.getCollisionRadius`: the constant 12. -/
def Ship.collisionRadius : ℝ := 12

/-- The asteroid size class, `'large' | 'medium' | 'small'`. -/
inductive ASize
  | large
  | medium
  | small
deriving DecidableEq

/-- Scale assigned by the `Asteroid` constructor switch on size. -/
def ASize.scale : ASize → ℝ
  | .large => 1
  | .medium => 0.6
  | .small => 0.3

/-- State of the `Asteroid` class. -/
structure Asteroid where
  position : Vec2
  velocity : Vec2
  rot : ℝ
  rotSpeed : ℝ
  size : ASize
  active : Bool

/-- The `Asteroid` constructor.  `r1 r2 r3` are the three `Math.random()`
draws it makes, in source order: rotation speed `(r1 - 0.5) * 2`, travel
angle `r2 * 2π`, speed `50 + r3 * 100`. -/
def Asteroid.build (r1 r2 r3 x y : ℝ) (size : ASize) : Asteroid :=
  let angle := r2 * (2 * Real.pi)
  let speed := 50 + r3 * 100
  { position := ⟨x, y⟩
    velocity := ⟨Real.cos angle * speed, Real.sin angle * speed⟩
    rot := 0
    rotSpeed := (r1 - 0.5) * 2
    size := size
    active := true }

/-- Field `scale` of an asteroid, set by the constructor from the size. -/
def Asteroid.scale (a : Asteroid) : ℝ := a.size.scale

/-- Method `Asteroid.update(deltaTime, canvasSize)`. -/
def Asteroid.update (dt : ℝ) (canvasSize : Vec2) (a : Asteroid) : Asteroid :=
  { a with
    rot := a.rot + a.rotSpeed * dt
    position := wrapPosition canvasSize ⟨a.position.x + a.velocity.x * dt, a.position.y + a.velocity.y * dt⟩ }

/-- Method `Asteroid.getCollisionRadius`: `20 * scale`. -/
def Asteroid.collisionRadius (a : Asteroid) : ℝ := 20 * a.scale

/-- State of the `Bullet` class. -/
structure Bullet where
  position : Vec2
  velocity : Vec2
  rot : ℝ
  lifeTime : ℝ
  active : Bool

/-- Private constant `maxLifeTime = 2` of `Bullet`. -/
def Bullet.maxLifeTime : ℝ := 2

/-- The `Bullet` constructor: speed 400 along the firing angle,
world-space velocity (sin angle, -cos angle) * 400. -/
def Bullet.build (x y angle : ℝ) : Bullet :=
  ⟨⟨x, y⟩, ⟨Real.sin angle * 400, -Real.cos angle * 400⟩, 0, 0, true⟩

/-- Method `Bullet.update(deltaTime, canvasSize)`: accumulate lifetime, on
expiry deactivate and return early (no movement), otherwise integrate and
wrap. -/
def Bullet.update (dt : ℝ) (canvasSize : Vec2) (b : Bullet) : Bullet :=
  let lt := b.lifeTime + dt
  if lt > Bullet.maxLifeTime then { b with lifeTime := lt, active := false }
  else
    { b with
      lifeTime := lt
      position := wrapPosition canvasSize ⟨b.position.x + b.velocity.x * dt, b.position.y + b.velocity.y * dt⟩ }

/-- Method `Bullet.getCollisionRadius`: the constant 2. -/
def Bullet.collisionRadius : ℝ := 2

/-- The `GameObject` class hierarchy as a tagged union, for the shared
`collidesWith` method. -/
inductive Entity
  | ship (s : Ship)
  | asteroid (a : Asteroid)
  | bullet (b : Bullet)

/-- Shared field `position`. -/
def Entity.position : Entity → Vec2
  | .ship s => s.position
  | .asteroid a => a.position
  | .bullet b => b.position

/-- Virtual method `getCollisionRadius`, dispatched by entity kind. -/
def Entity.collisionRadius : Entity → ℝ
  | .ship _ => Ship.collisionRadius
  | .asteroid a => a.collisionRadius
  | .bullet _ => Bullet.collisionRadius

/-- Method `GameObject.collidesWith`: strict comparison of the Euclidean
distance against the sum of the two collision radii. -/
def Entity.collidesWith (e o : Entity) : Prop :=
  distBetween e.position o.position < e.collisionRadius + o.collisionRadius

/-- Specialisation `bullet.collidesWith(asteroid)` used by the collision pass. -/
def bulletHits (b : Bullet) (a : Asteroid) : Prop :=
  Entity.collidesWith (.bullet b) (.asteroid a)

/-- Specialisation `ship.collidesWith(asteroid)` used by the collision pass. -/
def shipHits (s : Ship) (a : Asteroid) : Prop :=
  Entity.collidesWith (.ship s) (.asteroid a)

/-- The `GameState` enum. -/
inductive GameState
  | READY
  | PLAYING
  | GAME_OVER
  | PAUSED
deriving DecidableEq

/-- Stream of `Math.random()` outcomes together with the index of the next
draw to consume. -/
structure Rng where
  seq : ℕ → ℝ
  idx : ℕ

/-- Runs the `Asteroid` constructor consuming three stream draws. -/
def mkAsteroidR (r : Rng) (x y : ℝ) (size : ASize) : Asteroid × Rng :=
  (Asteroid.build (r.seq r.idx) (r.seq (r.idx + 1)) (r.seq (r.idx + 2)) x y size,
   ⟨r.seq, r.idx + 3⟩)

/-- State of the `Game` class.  UI elements, the renderer and the
localStorage-backed high-score list are external collaborators and are not
modelled; `lastTime` bookkeeping is replaced by passing deltaTime directly. -/
structure Game where
  ship : Ship
  asteroids : List Asteroid
  bullets : List Bullet
  state : GameState
  score : ℕ
  lives : ℤ
  level : ℕ
  fireDelay : ℝ
  rng : Rng
  canvasSize : Vec2

/-- Private constant `maxFireDelay = 0.15` of `Game`. -/
def Game.maxFireDelay : ℝ := 0.15

/-- The do-while rejection sampling of one spawn position in
`Game.createAsteroids`.  Attempt k draws `x = seq (idx+2k) * W` and
`y = seq (idx+2k+1) * H`; the loop exits at the first attempt that is not
inside the 100-by-100 exclusion box around the ship.  A diverging loop (no
exiting attempt anywhere in the stream) is modelled by returning attempt 0. -/
def pickPos (r : Rng) (W H sx sy : ℝ) : (ℝ × ℝ) × Rng :=
  let cand : ℕ → ℝ × ℝ := fun k => (r.seq (r.idx + 2 * k) * W, r.seq (r.idx + 2 * k + 1) * H)
  if h : ∃ k, ¬(|(cand k).1 - sx| < 100 ∧ |(cand k).2 - sy| < 100) then
    (cand (Nat.find h), ⟨r.seq, r.idx + 2 * (Nat.find h + 1)⟩)
  else
    (cand 0, ⟨r.seq, r.idx + 2⟩)

/-- The creation loop body of `Game.createAsteroids`: build `n` large
asteroids in order, each at a freshly sampled position. -/
def createAsteroidsAux (W H sx sy : ℝ) : ℕ → Rng → List Asteroid × Rng
  | 0, r => ([], r)
  | n + 1, r =>
    let p := pickPos r W H sx sy
    let a := mkAsteroidR p.2 p.1.1 p.1.2 .large
    let rest := createAsteroidsAux W H sx sy n a.2
    (a.1 :: rest.1, rest.2)

/-- Method `Game.createAsteroids`: replace the asteroid list with
`4 + level` fresh large asteroids. -/
def Game.createAsteroids (g : Game) : Game :=
  let res := createAsteroidsAux g.canvasSize.x g.canvasSize.y
    g.ship.position.x g.ship.position.y (4 + g.level) g.rng
  { g with asteroids := res.1, rng := res.2 }

/-- Method `Game.startGame` (state change only; UI text not modelled). -/
def Game.startGame (g : Game) : Game := { g with state := .PLAYING }

/-- Method `Game.pauseGame`. -/
def Game.pauseGame (g : Game) : Game := { g with state := .PAUSED }

/-- Method `Game.resumeGame`. -/
def Game.resumeGame (g : Game) : Game := { g with state := .PLAYING }

/-- Method `Game.setupGame`: fresh ship at the canvas center, then
`createAsteroids`. -/
def Game.setupGame (g : Game) : Game :=
  Game.createAsteroids { g with ship := Ship.init (g.canvasSize.x / 2) (g.canvasSize.y / 2) }

/-- Method `Game.resetGame`: reset stats and state, clear bullets, then
`setupGame`. -/
def Game.resetGame (g : Game) : Game :=
  Game.setupGame { g with score := 0, lives := 3, level := 1, state := .READY, bullets := [] }

/-- The `Space` keydown handler registered in `setupInputHandlers`. -/
def Game.keySpace (g : Game) : Game :=
  match g.state with
  | .READY => g.startGame
  | .GAME_OVER => g.resetGame
  | _ => g

/-- The `KeyP` keydown handler registered in `setupInputHandlers`. -/
def Game.keyP (g : Game) : Game :=
  match g.state with
  | .PLAYING => g.pauseGame
  | .PAUSED => g.resumeGame
  | _ => g

/-- Held-key intents reported by the InputManager collaborator. -/
structure Input where
  thrust : Bool
  left : Bool
  right : Bool
  fire : Bool

/-- Method `Game.fireBullet`: push a bullet at the ship position and
rotation. -/
def Game.fireBullet (g : Game) : Game :=
  { g with bullets := g.bullets ++ [Bullet.build g.ship.position.x g.ship.position.y g.ship.rot] }

/-- The ship-control block of `Game.handleInput`: set thrust from the held
intent (1 when pressed, else 0), then apply the left and right rotations. -/
def steer (inp : Input) (s : Ship) : Ship :=
  let s1 := if inp.thrust then s.setThrust 1 else s.setThrust 0
  let s2 := if inp.left then s1.rotate (-1) else s1
  if inp.right then s2.rotate 1 else s2

/-- Method `Game.handleInput(deltaTime)`: early return unless PLAYING; apply
the ship controls, decrement the fire cooldown, and fire when the fire key
is held and the decremented cooldown is ≤ 0, resetting the cooldown to
`maxFireDelay`. -/
def Game.handleInput (dt : ℝ) (inp : Input) (g : Game) : Game :=
  if g.state ≠ GameState.PLAYING then g
  else
    let g1 := { g with ship := steer inp g.ship, fireDelay := g.fireDelay - dt }
    if inp.fire = true ∧ g1.fireDelay ≤ 0 then
      { g1.fireBullet with fireDelay := Game.maxFireDelay }
    else g1

/-- Method `Game.updateGameObjects(deltaTime)`: early return unless PLAYING;
update the ship and every asteroid, update every bullet and keep only the
still-active ones. -/
def Game.updateGameObjects (dt : ℝ) (g : Game) : Game :=
  if g.state ≠ GameState.PLAYING then g
  else
    { g with
      ship := g.ship.update dt g.canvasSize
      asteroids := g.asteroids.map (Asteroid.update dt g.canvasSize)
      bullets := (g.bullets.map (Bullet.update dt g.canvasSize)).filter (fun b => b.active) }

/-- Score award of `Game.addScore`, switched on the asteroid size. -/
def scoreFor : ASize → ℕ
  | .large => 20
  | .medium => 50
  | .small => 100

/-- Method `Game.breakAsteroid`: large breaks into 2 medium pieces, medium
into 2 small pieces, small into none; every piece is constructed at the
destroyed asteroid's position (consuming stream draws in push order). -/
def fragments (r : Rng) (a : Asteroid) : List Asteroid × Rng :=
  match a.size with
  | .large =>
    let p1 := mkAsteroidR r a.position.x a.position.y .medium
    let p2 := mkAsteroidR p1.2 a.position.x a.position.y .medium
    ([p1.1, p2.1], p2.2)
  | .medium =>
    let p1 := mkAsteroidR r a.position.x a.position.y .small
    let p2 := mkAsteroidR p1.2 a.position.x a.position.y .small
    ([p1.1, p2.1], p2.2)
  | .small => ([], r)

/-- The inner reverse-index scan of the bullet-asteroid pass: the asteroid
hit by the bullet is the colliding one of highest index (the first found
scanning `j` from `asteroids.length - 1` down to 0).  Returns its index and
the asteroid itself. -/
def findHit (b : Bullet) : List Asteroid → Option (ℕ × Asteroid)
  | [] => none
  | a :: rest =>
    match findHit b rest with
    | some jh => some (jh.1 + 1, jh.2)
    | none => if bulletHits b a then some (0, a) else none

/-- Result of the bullet-asteroid pass. -/
structure PassResult where
  bullets : List Bullet
  asteroids : List Asteroid
  score : ℕ
  rng : Rng

/-- The bullet-asteroid pass of `Game.checkCollisions`.  The source iterates
`i` from `bullets.length - 1` down to 0, so later list elements are processed
first: the recursion processes `rest` before `b`.  On a hit the bullet and
the hit asteroid are spliced out, the score is awarded by size, and the
fragments are pushed at the end of the asteroid list. -/
def bulletPass : List Bullet → List Asteroid → ℕ → Rng → PassResult
  | [], asts, sc, r => ⟨[], asts, sc, r⟩
  | b :: rest, asts, sc, r =>
    let prev := bulletPass rest asts sc r
    match findHit b prev.asteroids with
    | none => ⟨b :: prev.bullets, prev.asteroids, prev.score, prev.rng⟩
    | some jh =>
      let fr := fragments prev.rng jh.2
      ⟨prev.bullets, prev.asteroids.eraseIdx jh.1 ++ fr.1, prev.score + scoreFor jh.2.size, fr.2⟩

/-- Method `Game.loseLife`: decrement lives; at ≤ 0 go to GAME_OVER (the
high-score write of `gameOver` is an external collaborator), otherwise
reposition the ship at the canvas center with zero velocity and rotation. -/
def Game.loseLife (g : Game) : Game :=
  let g1 := { g with lives := g.lives - 1 }
  if g1.lives ≤ 0 then { g1 with state := .GAME_OVER }
  else
    { g1 with
      ship :=
        { g1.ship with
          position := ⟨g1.canvasSize.x / 2, g1.canvasSize.y / 2⟩
          velocity := ⟨0, 0⟩
          rot := 0 } }

/-- The ship-asteroid pass of `Game.checkCollisions`: a for-of loop that
calls `loseLife` at the first colliding asteroid and breaks.  Since
`loseLife` does not use the asteroid, the break makes at most one call. -/
def shipPassAux (g : Game) : List Asteroid → Game
  | [] => g
  | a :: rest => if shipHits g.ship a then g.loseLife else shipPassAux g rest

/-- Method `Game.nextLevel`: increment the level, then `createAsteroids`
(which uses the already incremented level). -/
def Game.nextLevel (g : Game) : Game :=
  Game.createAsteroids { g with level := g.level + 1 }

/-- Method `Game.checkCollisions`: early return unless PLAYING; bullet pass,
ship pass, then the level-clear check on the resulting asteroid list. -/
def Game.checkCollisions (g : Game) : Game :=
  if g.state ≠ GameState.PLAYING then g
  else
    let pr := bulletPass g.bullets g.asteroids g.score g.rng
    let g1 := { g with bullets := pr.bullets, asteroids := pr.asteroids, score := pr.score, rng := pr.rng }
    let g2 := shipPassAux g1 g1.asteroids
    if g2.asteroids.length = 0 then g2.nextLevel else g2

/-- One iteration of the `Game.update` main loop with a given deltaTime
(render mutates no game state and is not modelled). -/
def Game.tick (dt : ℝ) (inp : Input) (g : Game) : Game :=
  Game.checkCollisions (Game.updateGameObjects dt (Game.handleInput dt inp g))

/-- The `Game` constructor state after `setupGame`, for a canvas of size
(W, H) and a given random stream. -/
def Game.init (W H : ℝ) (seq : ℕ → ℝ) : Game :=
  Game.setupGame
    { ship := Ship.init (W / 2) (H / 2)
      asteroids := []
      bullets := []
      state := .READY
      score := 0
      lives := 3
      level := 1
      fireDelay := 0
      rng := ⟨seq, 0⟩
      canvasSize := ⟨W, H⟩ }

/-- Iterated `handleInput` with per-tick deltaTimes, for the fire-rate
property: tick n maps state n to state n+1 using `dts n`. -/
def fireTrace (inp : Input) (dts : ℕ → ℝ) (g0 : Game) : ℕ → Game
  | 0 => g0
  | n + 1 => Game.handleInput (dts n) inp (fireTrace inp dts g0 n)

/-- Bullet spawn happened during tick n of the iterated `handleInput`. -/
def spawnedAt (inp : Input) (dts : ℕ → ℝ) (g0 : Game) (n : ℕ) : Prop :=
  (fireTrace inp dts g0 (n + 1)).bullets.length = (fireTrace inp dts g0 n).bullets.length + 1

/-- Position inside the closed canvas rectangle. -/
def inBox (W H : ℝ) (p : Vec2) : Prop :=
  0 ≤ p.x ∧ p.x ≤ W ∧ 0 ≤ p.y ∧ p.y ≤ H

/-- Every entity of the game sits inside the canvas rectangle. -/
def Game.InBounds (g : Game) : Prop :=
  inBox g.canvasSize.x g.canvasSize.y g.ship.position ∧
  (∀ a ∈ g.asteroids, inBox g.canvasSize.x g.canvasSize.y a.position) ∧
  (∀ b ∈ g.bullets, inBox g.canvasSize.x g.canvasSize.y b.position)

/-- Game states reachable from the constructor through the main loop and the
two keydown handlers. -/
inductive Game.Reachable (W H : ℝ) (seq : ℕ → ℝ) : Game → Prop
  | init : Game.Reachable W H seq (Game.init W H seq)
  | tick (dt : ℝ) (inp : Input) {g : Game} :
      Game.Reachable W H seq g → Game.Reachable W H seq (g.tick dt inp)
  | space {g : Game} : Game.Reachable W H seq g → Game.Reachable W H seq g.keySpace
  | pkey {g : Game} : Game.Reachable W H seq g → Game.Reachable W H seq g.keyP

/-- Spec-side variant of `Ship.update` for claim C1, following the spec's
words: the thrust delta is `(sin rot, -cos rot) * thrustPower * thrust * dt`,
proportional to the commanded thrust level.  Everything else is as in
`Ship.update`. -/
def shipUpdateSpecC1 (dt : ℝ) (canvasSize : Vec2) (s : Ship) : Ship :=
  let v0 : Vec2 :=
    if s.thrust > 0 then
      ⟨s.velocity.x + Real.sin s.rot * Ship.thrustPower * s.thrust * dt,
       s.velocity.y + -Real.cos s.rot * Ship.thrustPower * s.thrust * dt⟩
    else s.velocity
  let speed := Real.sqrt (v0.x * v0.x + v0.y * v0.y)
  let v1 : Vec2 :=
    if speed > Ship.maxSpeed then
      ⟨v0.x / speed * Ship.maxSpeed, v0.y / speed * Ship.maxSpeed⟩
    else v0
  let v2 : Vec2 := ⟨v1.x * Ship.friction, v1.y * Ship.friction⟩
  { s with
    velocity := v2
    position := wrapPosition canvasSize ⟨s.position.x + v2.x * dt, s.position.y + v2.y * dt⟩ }

/-! Theorems. -/

/-- Helper: evaluate a square root at a perfect square. -/
theorem sqrt_eval {a b : ℝ} (hb : 0 ≤ b) (h : b ^ 2 = a) : Real.sqrt a = b := by
  subst h
  exact Real.sqrt_sq hb

/-- Helper: the two sequential ifs of `wrapCoord` collapse to one nested
conditional. -/
theorem wrapCoord_eq (bound c : ℝ) :
    wrapCoord bound c = if c < 0 then bound else if c > bound then 0 else c := by
  unfold wrapCoord
  by_cases hc : c < 0 <;> simp [hc]

/-- C7: the screen-wrap rule, per axis: a coordinate strictly below 0 becomes
the bound, one strictly above the bound becomes 0, and a coordinate exactly 0
or exactly the bound is left unchanged; in particular -1 wraps to the bound
and bound + 1 wraps to 0 (a hard teleport, not a modulo: -6 against bound 10
becomes 10, not 4). -/
theorem wrapCoord_rule (bound c : ℝ) :
    wrapCoord bound c = (if c < 0 then bound else if c > bound then 0 else c) ∧
    wrapCoord bound 0 = 0 ∧
    wrapCoord bound bound = bound ∧
    wrapCoord bound (-1) = bound ∧
    (0 ≤ bound → wrapCoord bound (bound + 1) = 0) ∧
    wrapCoord 10 (-6) = 10 := by
  refine ⟨wrapCoord_eq bound c, ?_, ?_, ?_, ?_, ?_⟩
  · rw [wrapCoord_eq]
    split_ifs with h1 h2 <;> first | rfl | linarith
  · rw [wrapCoord_eq]
    split_ifs with h1 h2 <;> first | rfl | linarith
  · rw [wrapCoord_eq]
    norm_num
  · intro hb
    rw [wrapCoord_eq]
    split_ifs with h1 h2 <;> first | rfl | linarith
  · rw [wrapCoord_eq]
    norm_num

/-- Witness for C7 at bound 800: 801 wraps to 0. -/
theorem wrapCoord_rule_witness : wrapCoord 800 (800 + 1) = 0 :=
  (wrapCoord_rule 800 0).2.2.2.2.1 (by norm_num)

/-- C6: `collidesWith` holds exactly when the Euclidean distance between the
positions is strictly below the sum of the collision radii; the radius is 12
for the ship, 20, 12 or 6 for a large, medium or small asteroid, and 2 for a
bullet; a distance exactly equal to the sum does not collide. -/
theorem collidesWith_rule :
    (∀ e o : Entity, e.collidesWith o ↔
      Real.sqrt ((e.position.x - o.position.x) ^ 2 + (e.position.y - o.position.y) ^ 2)
        < e.collisionRadius + o.collisionRadius) ∧
    (∀ s : Ship, (Entity.ship s).collisionRadius = 12) ∧
    (∀ a : Asteroid, a.size = .large → (Entity.asteroid a).collisionRadius = 20) ∧
    (∀ a : Asteroid, a.size = .medium → (Entity.asteroid a).collisionRadius = 12) ∧
    (∀ a : Asteroid, a.size = .small → (Entity.asteroid a).collisionRadius = 6) ∧
    (∀ b : Bullet, (Entity.bullet b).collisionRadius = 2) ∧
    (∀ e o : Entity,
      Real.sqrt ((e.position.x - o.position.x) ^ 2 + (e.position.y - o.position.y) ^ 2)
        = e.collisionRadius + o.collisionRadius → ¬ e.collidesWith o) := by
  have hdist : ∀ e o : Entity,
      distBetween e.position o.position =
      Real.sqrt ((e.position.x - o.position.x) ^ 2 + (e.position.y - o.position.y) ^ 2) := by
    intro e o
    unfold distBetween
    ring_nf
  refine ⟨?_, ?_, ?_, ?_, ?_, ?_, ?_⟩
  · intro e o
    unfold Entity.collidesWith
    rw [hdist]
  · intro s
    rfl
  · intro a ha
    simp [Entity.collisionRadius, Asteroid.collisionRadius, Asteroid.scale, ha, ASize.scale]
  · intro a ha
    simp [Entity.collisionRadius, Asteroid.collisionRadius, Asteroid.scale, ha, ASize.scale]
    norm_num
  · intro a ha
    simp [Entity.collisionRadius, Asteroid.collisionRadius, Asteroid.scale, ha, ASize.scale]
    norm_num
  · intro b
    rfl
  · intro e o heq hcol
    rw [Entity.collidesWith, hdist, heq] at hcol
    exact lt_irrefl _ hcol

/-- Witness for C6: a ship at the origin and a bullet at distance exactly
12 + 2 = 14 do not collide. -/
theorem collidesWith_rule_witness :
    ¬ Entity.collidesWith (.ship (Ship.init 0 0)) (.bullet (Bullet.build 14 0 0)) := by
  refine collidesWith_rule.2.2.2.2.2.2 _ _ ?_
  show Real.sqrt (((0:ℝ) - 14) ^ 2 + ((0:ℝ) - 0) ^ 2) = 12 + 2
  rw [sqrt_eval (b := 14) (by norm_num) (by norm_num)]
  norm_num

/-- Helper: `Ship.update` with its private constants inlined. -/
theorem ship_update_eq (dt : ℝ) (cs : Vec2) (s : Ship) :
    Ship.update dt cs s =
      (let v0 : Vec2 :=
        if s.thrust > 0 then
          ⟨s.velocity.x + Real.sin s.rot * 400 * dt, s.velocity.y + -Real.cos s.rot * 400 * dt⟩
        else s.velocity
      let speed := Real.sqrt (v0.x * v0.x + v0.y * v0.y)
      let v1 : Vec2 :=
        if speed > 300 then ⟨v0.x / speed * 300, v0.y / speed * 300⟩ else v0
      let v2 : Vec2 := ⟨v1.x * 0.98, v1.y * 0.98⟩
      { s with
        velocity := v2
        position := wrapPosition cs ⟨s.position.x + v2.x * dt, s.position.y + v2.y * dt⟩ }) := rfl

/-- C1 (amended): for a `Ship.update` call with commanded thrust level
t > 0, the velocity is first incremented by the world-space delta
(sin rot, -cos rot) * thrustPower * deltaTime — NOT proportional to t, which
only gates the branch; then, when the speed exceeds maxSpeed = 300, the
velocity is uniformly rescaled to magnitude exactly 300; then it is
multiplied exactly once by the friction constant 0.98 independently of
deltaTime; finally the position is incremented by the resulting velocity
times deltaTime and wrapped at the bounds, and rotation and thrust are
untouched. -/
theorem ship_update_rule (dt : ℝ) (cs : Vec2) (s : Ship) (ht : s.thrust > 0) :
    ∃ v1 v2 : Vec2,
      v1 = ⟨s.velocity.x + Real.sin s.rot * 400 * dt,
            s.velocity.y + -Real.cos s.rot * 400 * dt⟩ ∧
      (Real.sqrt (v1.x * v1.x + v1.y * v1.y) ≤ 300 → v2 = v1) ∧
      (300 < Real.sqrt (v1.x * v1.x + v1.y * v1.y) →
        v2 = ⟨v1.x / Real.sqrt (v1.x * v1.x + v1.y * v1.y) * 300,
              v1.y / Real.sqrt (v1.x * v1.x + v1.y * v1.y) * 300⟩ ∧
        Real.sqrt (v2.x * v2.x + v2.y * v2.y) = 300) ∧
      (Ship.update dt cs s).velocity = ⟨v2.x * 0.98, v2.y * 0.98⟩ ∧
      (Ship.update dt cs s).position =
        wrapPosition cs ⟨s.position.x + v2.x * 0.98 * dt, s.position.y + v2.y * 0.98 * dt⟩ ∧
      (Ship.update dt cs s).rot = s.rot ∧
      (Ship.update dt cs s).thrust = s.thrust := by
  classical
  have hup := ship_update_eq dt cs s
  simp only [if_pos ht] at hup
  by_cases hsp :
      Real.sqrt
        ((s.velocity.x + Real.sin s.rot * 400 * dt) * (s.velocity.x + Real.sin s.rot * 400 * dt) +
         (s.velocity.y + -Real.cos s.rot * 400 * dt) * (s.velocity.y + -Real.cos s.rot * 400 * dt))
        > 300
  · simp only [if_pos hsp] at hup
    refine ⟨⟨s.velocity.x + Real.sin s.rot * 400 * dt, s.velocity.y + -Real.cos s.rot * 400 * dt⟩,
      ⟨(s.velocity.x + Real.sin s.rot * 400 * dt) /
          Real.sqrt
            ((s.velocity.x + Real.sin s.rot * 400 * dt) * (s.velocity.x + Real.sin s.rot * 400 * dt) +
             (s.velocity.y + -Real.cos s.rot * 400 * dt) * (s.velocity.y + -Real.cos s.rot * 400 * dt)) * 300,
       (s.velocity.y + -Real.cos s.rot * 400 * dt) /
          Real.sqrt
            ((s.velocity.x + Real.sin s.rot * 400 * dt) * (s.velocity.x + Real.sin s.rot * 400 * dt) +
             (s.velocity.y + -Real.cos s.rot * 400 * dt) * (s.velocity.y + -Real.cos s.rot * 400 * dt)) * 300⟩,
      rfl, ?_, ?_, ?_, ?_, ?_, ?_⟩
    · intro hle
      dsimp only at hle
      exact absurd hsp (not_lt.mpr hle)
    · intro _
      refine ⟨rfl, ?_⟩
      dsimp only
      set w := Real.sqrt
          ((s.velocity.x + Real.sin s.rot * 400 * dt) * (s.velocity.x + Real.sin s.rot * 400 * dt) +
           (s.velocity.y + -Real.cos s.rot * 400 * dt) * (s.velocity.y + -Real.cos s.rot * 400 * dt))
        with hw
      have hnn : (0:ℝ) ≤
          (s.velocity.x + Real.sin s.rot * 400 * dt) * (s.velocity.x + Real.sin s.rot * 400 * dt) +
          (s.velocity.y + -Real.cos s.rot * 400 * dt) * (s.velocity.y + -Real.cos s.rot * 400 * dt) :=
        add_nonneg (mul_self_nonneg _) (mul_self_nonneg _)
      have hwpos : (0:ℝ) < w := lt_trans (by norm_num) hsp
      have hwne : w ≠ 0 := ne_of_gt hwpos
      have hms : w * w =
          (s.velocity.x + Real.sin s.rot * 400 * dt) * (s.velocity.x + Real.sin s.rot * 400 * dt) +
          (s.velocity.y + -Real.cos s.rot * 400 * dt) * (s.velocity.y + -Real.cos s.rot * 400 * dt) := by
        rw [hw]
        exact Real.mul_self_sqrt hnn
      rw [show ∀ a b u : ℝ, a / u * 300 * (a / u * 300) + b / u * 300 * (b / u * 300)
            = (a * a + b * b) / (u * u) * (300 * 300) from by intro a b u; ring]
      rw [← hms]
      rw [div_self (by exact mul_ne_zero hwne hwne)]
      rw [one_mul]
      exact Real.sqrt_mul_self (by norm_num)
    · rw [hup]
    · rw [hup]
    · rw [hup]
    · rw [hup]
  · simp only [if_neg hsp] at hup
    refine ⟨⟨s.velocity.x + Real.sin s.rot * 400 * dt, s.velocity.y + -Real.cos s.rot * 400 * dt⟩,
      ⟨s.velocity.x + Real.sin s.rot * 400 * dt, s.velocity.y + -Real.cos s.rot * 400 * dt⟩,
      rfl, ?_, ?_, ?_, ?_, ?_, ?_⟩
    · intro _
      rfl
    · intro hgt
      dsimp only at hgt
      exact absurd hgt hsp
    · rw [hup]
    · rw [hup]
    · rw [hup]
    · rw [hup]

/-- Witness for the amended C1 theorem at thrust level 1. -/
theorem ship_update_rule_witness :
    (Ship.update 1 ⟨800, 600⟩ ⟨⟨400, 300⟩, ⟨0, 0⟩, 0, 1, true⟩).thrust = 1 := by
  obtain ⟨v1, v2, -, -, -, -, -, -, hth⟩ :=
    ship_update_rule 1 ⟨800, 600⟩ ⟨⟨400, 300⟩, ⟨0, 0⟩, 0, 1, true⟩ (by norm_num)
  exact hth

/-- Counterexample for C1 as stated: the source adds the full
`thrustPower * dt` thrust delta whenever t > 0, not the claimed
`thrustPower * t * dt`.  With thrust level t = 1/2, rotation 0, zero
velocity and dt = 1/2 the code yields y velocity -196, while the claimed
t-proportional update yields -98. -/
theorem ship_update_c1_counterexample :
    (Ship.update (1/2) ⟨1000, 1000⟩ ⟨⟨0, 0⟩, ⟨0, 0⟩, 0, 1/2, true⟩).velocity.y ≠
      (shipUpdateSpecC1 (1/2) ⟨1000, 1000⟩ ⟨⟨0, 0⟩, ⟨0, 0⟩, 0, 1/2, true⟩).velocity.y := by
  have e200 : Real.sqrt (40000:ℝ) = 200 := sqrt_eval (by norm_num) (by norm_num)
  have e100 : Real.sqrt (10000:ℝ) = 100 := sqrt_eval (by norm_num) (by norm_num)
  rw [ship_update_eq]
  unfold shipUpdateSpecC1
  norm_num [Real.sin_zero, Real.cos_zero, Ship.thrustPower, Ship.maxSpeed, Ship.friction, e200, e100]

/-- Helper: `handleInput` never changes the game state field. -/
theorem handleInput_state (dt : ℝ) (inp : Input) (g : Game) :
    (g.handleInput dt inp).state = g.state := by
  unfold Game.handleInput Game.fireBullet
  dsimp only
  split_ifs <;> rfl

/-- Helper: `handleInput` never changes asteroids, score, lives, level,
canvas size or the random stream. -/
theorem handleInput_fields (dt : ℝ) (inp : Input) (g : Game) :
    (g.handleInput dt inp).asteroids = g.asteroids ∧
    (g.handleInput dt inp).score = g.score ∧
    (g.handleInput dt inp).lives = g.lives ∧
    (g.handleInput dt inp).level = g.level ∧
    (g.handleInput dt inp).canvasSize = g.canvasSize ∧
    (g.handleInput dt inp).rng = g.rng := by
  unfold Game.handleInput Game.fireBullet
  dsimp only
  split_ifs <;> exact ⟨rfl, rfl, rfl, rfl, rfl, rfl⟩

/-- Helper: `updateGameObjects` changes no field other than the ship, the
asteroid list and the bullet list. -/
theorem updateGameObjects_fields (dt : ℝ) (g : Game) :
    (g.updateGameObjects dt).state = g.state ∧
    (g.updateGameObjects dt).score = g.score ∧
    (g.updateGameObjects dt).lives = g.lives ∧
    (g.updateGameObjects dt).level = g.level ∧
    (g.updateGameObjects dt).canvasSize = g.canvasSize ∧
    (g.updateGameObjects dt).rng = g.rng := by
  unfold Game.updateGameObjects
  split_ifs <;> exact ⟨rfl, rfl, rfl, rfl, rfl, rfl⟩

/-- Helper: `updateGameObjects` in the PLAYING state. -/
theorem updateGameObjects_playing (dt : ℝ) (g : Game) (h : g.state = GameState.PLAYING) :
    g.updateGameObjects dt =
      { g with
        ship := g.ship.update dt g.canvasSize
        asteroids := g.asteroids.map (Asteroid.update dt g.canvasSize)
        bullets := (g.bullets.map (Bullet.update dt g.canvasSize)).filter (fun b => b.active) } := by
  unfold Game.updateGameObjects
  rw [if_neg]
  simp [h]

/-- Helper: `Bullet.update` with its private constant inlined. -/
theorem bullet_update_eq (dt : ℝ) (cs : Vec2) (b : Bullet) :
    Bullet.update dt cs b =
      if b.lifeTime + dt > 2 then { b with lifeTime := b.lifeTime + dt, active := false }
      else
        { b with
          lifeTime := b.lifeTime + dt
          position := wrapPosition cs ⟨b.position.x + b.velocity.x * dt, b.position.y + b.velocity.y * dt⟩ } :=
  rfl

/-- C9: `Bullet.update` accumulates the elapsed lifetime; when the
accumulated lifetime exceeds the fixed maximum of 2 seconds the bullet is
deactivated with its position unchanged, otherwise the position is
integrated by velocity times deltaTime and wrapped; and in a PLAYING tick the
bullet collection fed to collision resolution is the updated list filtered
to active bullets, so a deactivated bullet never reaches that tick's
collision pass. -/
theorem bullet_update_rule (dt : ℝ) (cs : Vec2) (b : Bullet) (g : Game) :
    (Bullet.update dt cs b).lifeTime = b.lifeTime + dt ∧
    (b.lifeTime + dt > 2 →
      (Bullet.update dt cs b).active = false ∧
      (Bullet.update dt cs b).position = b.position) ∧
    (¬ b.lifeTime + dt > 2 →
      (Bullet.update dt cs b).position =
        wrapPosition cs ⟨b.position.x + b.velocity.x * dt, b.position.y + b.velocity.y * dt⟩ ∧
      (Bullet.update dt cs b).active = b.active) ∧
    (g.state = GameState.PLAYING →
      (g.updateGameObjects dt).bullets =
        (g.bullets.map (Bullet.update dt g.canvasSize)).filter (fun bb => bb.active) ∧
      (∀ bb ∈ (g.updateGameObjects dt).bullets, bb.active = true) ∧
      ∀ inp : Input, ∀ bb ∈ ((g.handleInput dt inp).updateGameObjects dt).bullets, bb.active = true) := by
  refine ⟨?_, ?_, ?_, ?_⟩
  · rw [bullet_update_eq]
    split_ifs <;> rfl
  · intro hgt
    rw [bullet_update_eq, if_pos hgt]
    exact ⟨rfl, rfl⟩
  · intro hle
    rw [bullet_update_eq, if_neg hle]
    exact ⟨rfl, rfl⟩
  · intro h
    have hupd := updateGameObjects_playing dt g h
    refine ⟨by rw [hupd], ?_, ?_⟩
    · intro bb hbb
      rw [hupd] at hbb
      exact (List.mem_filter.mp hbb).2
    · intro inp bb hbb
      have h2 : (g.handleInput dt inp).state = GameState.PLAYING := by
        rw [handleInput_state, h]
      rw [updateGameObjects_playing dt _ h2] at hbb
      exact (List.mem_filter.mp hbb).2

/-- Witness for C9: a bullet whose lifetime passes 2 seconds is deactivated
in place. -/
theorem bullet_update_rule_witness :
    (Bullet.update 3 ⟨800, 600⟩ (Bullet.build 5 5 0)).active = false ∧
    (Bullet.update 3 ⟨800, 600⟩ (Bullet.build 5 5 0)).position = (Bullet.build 5 5 0).position :=
  (bullet_update_rule 3 ⟨800, 600⟩ (Bullet.build 5 5 0)
    ⟨Ship.init 0 0, [], [], .READY, 0, 3, 1, 0, ⟨fun _ => 0, 0⟩, ⟨800, 600⟩⟩).2.1
    (by show (0:ℝ) + 3 > 2; norm_num)

/-- Helper: `handleInput` is the identity outside PLAYING. -/
theorem handleInput_not_playing (dt : ℝ) (inp : Input) (g : Game)
    (h : g.state ≠ GameState.PLAYING) : g.handleInput dt inp = g := by
  unfold Game.handleInput
  rw [if_pos h]

/-- Helper: `updateGameObjects` is the identity outside PLAYING. -/
theorem updateGameObjects_not_playing (dt : ℝ) (g : Game)
    (h : g.state ≠ GameState.PLAYING) : g.updateGameObjects dt = g := by
  unfold Game.updateGameObjects
  rw [if_pos h]

/-- Helper: `checkCollisions` is the identity outside PLAYING. -/
theorem checkCollisions_not_playing (g : Game)
    (h : g.state ≠ GameState.PLAYING) : g.checkCollisions = g := by
  unfold Game.checkCollisions
  rw [if_pos h]

/-- Helper: the `createAsteroids` loop builds exactly n asteroids, all
large. -/
theorem createAsteroidsAux_spec (W H sx sy : ℝ) :
    ∀ (n : ℕ) (r : Rng),
      (createAsteroidsAux W H sx sy n r).1.length = n ∧
      ∀ a ∈ (createAsteroidsAux W H sx sy n r).1, a.size = ASize.large := by
  intro n
  induction n with
  | zero =>
    intro r
    exact ⟨rfl, by intro a ha; cases ha⟩
  | succ n ih =>
    intro r
    unfold createAsteroidsAux
    dsimp only
    constructor
    · rw [List.length_cons, (ih _).1]
    · intro a ha
      rcases List.mem_cons.mp ha with h | h
      · subst h; rfl
      · exact (ih _).2 a h

/-- C3: the state machine.  Space in READY starts the game; Space in
GAME_OVER resets score, lives, level, clears bullets, recreates the ship at
the canvas center and a fresh field of 5 large asteroids, and moves to
READY; P toggles only between PLAYING and PAUSED and is a no-op in READY and
GAME_OVER; Space is a no-op in PLAYING and PAUSED; and a tick in any state
other than PLAYING changes nothing at all. -/
theorem state_machine_rule (g : Game) (dt : ℝ) (inp : Input) :
    (g.state = GameState.READY → g.keySpace = { g with state := GameState.PLAYING }) ∧
    (g.state = GameState.GAME_OVER →
      g.keySpace.score = 0 ∧ g.keySpace.lives = 3 ∧ g.keySpace.level = 1 ∧
      g.keySpace.bullets = [] ∧ g.keySpace.state = GameState.READY ∧
      g.keySpace.ship = Ship.init (g.canvasSize.x / 2) (g.canvasSize.y / 2) ∧
      g.keySpace.asteroids.length = 4 + 1 ∧
      ∀ a ∈ g.keySpace.asteroids, a.size = ASize.large) ∧
    (g.state = GameState.PLAYING → g.keyP = { g with state := GameState.PAUSED }) ∧
    (g.state = GameState.PAUSED → g.keyP = { g with state := GameState.PLAYING }) ∧
    (g.state = GameState.READY → g.keyP = g) ∧
    (g.state = GameState.GAME_OVER → g.keyP = g) ∧
    (g.state = GameState.PLAYING → g.keySpace = g) ∧
    (g.state = GameState.PAUSED → g.keySpace = g) ∧
    (g.state ≠ GameState.PLAYING → g.tick dt inp = g) := by
  refine ⟨?_, ?_, ?_, ?_, ?_, ?_, ?_, ?_, ?_⟩
  · intro h
    unfold Game.keySpace
    rw [h]
    rfl
  · intro h
    unfold Game.keySpace
    rw [h]
    show (Game.resetGame g).score = 0 ∧ _
    unfold Game.resetGame Game.setupGame Game.createAsteroids
    dsimp only
    refine ⟨rfl, rfl, rfl, rfl, rfl, rfl, ?_, ?_⟩
    · exact (createAsteroidsAux_spec _ _ _ _ _ _).1
    · exact (createAsteroidsAux_spec _ _ _ _ _ _).2
  · intro h
    unfold Game.keyP
    rw [h]
    rfl
  · intro h
    unfold Game.keyP
    rw [h]
    rfl
  · intro h
    unfold Game.keyP
    rw [h]
  · intro h
    unfold Game.keyP
    rw [h]
  · intro h
    unfold Game.keySpace
    rw [h]
  · intro h
    unfold Game.keySpace
    rw [h]
  · intro h
    unfold Game.tick
    rw [handleInput_not_playing dt inp g h, updateGameObjects_not_playing dt g h,
      checkCollisions_not_playing g h]

/-- Witness for C3: a paused tick changes nothing. -/
theorem state_machine_rule_witness :
    Game.tick 1 ⟨true, true, true, true⟩
      ⟨Ship.init 5 5, [], [], .PAUSED, 7, 2, 3, 0, ⟨fun _ => 0, 0⟩, ⟨800, 600⟩⟩ =
      ⟨Ship.init 5 5, [], [], .PAUSED, 7, 2, 3, 0, ⟨fun _ => 0, 0⟩, ⟨800, 600⟩⟩ :=
  (state_machine_rule ⟨Ship.init 5 5, [], [], .PAUSED, 7, 2, 3, 0, ⟨fun _ => 0, 0⟩, ⟨800, 600⟩⟩
    1 ⟨true, true, true, true⟩).2.2.2.2.2.2.2.2 (by simp)

/-- Helper: fields unchanged by `loseLife`, and the lives decrement. -/
theorem loseLife_fields (g : Game) :
    (g.loseLife).lives = g.lives - 1 ∧
    (g.loseLife).asteroids = g.asteroids ∧
    (g.loseLife).bullets = g.bullets ∧
    (g.loseLife).score = g.score ∧
    (g.loseLife).level = g.level ∧
    (g.loseLife).canvasSize = g.canvasSize := by
  unfold Game.loseLife
  dsimp only
  split_ifs <;> exact ⟨rfl, rfl, rfl, rfl, rfl, rfl⟩

/-- Helper: `loseLife` with lives remaining recenters the ship. -/
theorem loseLife_pos (g : Game) (h : 0 < g.lives - 1) :
    g.loseLife =
      { g with
        lives := g.lives - 1
        ship :=
          { g.ship with
            position := ⟨g.canvasSize.x / 2, g.canvasSize.y / 2⟩
            velocity := ⟨0, 0⟩
            rot := 0 } } := by
  unfold Game.loseLife
  dsimp only
  rw [if_neg (by omega)]

/-- Helper: `loseLife` at the last life moves to GAME_OVER. -/
theorem loseLife_nonpos (g : Game) (h : g.lives - 1 ≤ 0) :
    g.loseLife = { g with lives := g.lives - 1, state := GameState.GAME_OVER } := by
  unfold Game.loseLife
  dsimp only
  rw [if_pos (by omega)]

/-- Helper: characterization of the ship-asteroid for-break loop. -/
theorem shipPassAux_char (g : Game) :
    ∀ asts : List Asteroid,
      ((∃ a ∈ asts, shipHits g.ship a) → shipPassAux g asts = g.loseLife) ∧
      ((∀ a ∈ asts, ¬ shipHits g.ship a) → shipPassAux g asts = g) := by
  intro asts
  induction asts with
  | nil =>
    refine ⟨?_, fun _ => rfl⟩
    rintro ⟨a, ha, -⟩
    cases ha
  | cons a rest ih =>
    constructor
    · rintro ⟨b, hb, hhit⟩
      unfold shipPassAux
      by_cases hca : shipHits g.ship a
      · rw [if_pos hca]
      · rw [if_neg hca]
        rcases List.mem_cons.mp hb with h | h
        · subst h; exact absurd hhit hca
        · exact ih.1 ⟨b, h, hhit⟩
    · intro hnone
      unfold shipPassAux
      rw [if_neg (hnone a (List.mem_cons_self a rest))]
      exact ih.2 (fun x hx => hnone x (List.mem_cons_of_mem a hx))

/-- C4: in the ship-asteroid pass of a PLAYING tick, lives decrement by
exactly 1 when the ship collides with one or more asteroids (a single
`loseLife` call even when several asteroids overlap the ship), no asteroid
is removed, bullets, score and level are untouched, and when lives remain
positive the ship is recentered with zero velocity and zero rotation while
the game stays in its state; with no collision the pass changes nothing. -/
theorem ship_collision_rule (g : Game) :
    ((∃ a ∈ g.asteroids, shipHits g.ship a) →
      shipPassAux g g.asteroids = g.loseLife ∧
      (shipPassAux g g.asteroids).lives = g.lives - 1 ∧
      (shipPassAux g g.asteroids).asteroids = g.asteroids ∧
      (shipPassAux g g.asteroids).bullets = g.bullets ∧
      (shipPassAux g g.asteroids).score = g.score ∧
      (shipPassAux g g.asteroids).level = g.level ∧
      (0 < g.lives - 1 →
        (shipPassAux g g.asteroids).ship.position = ⟨g.canvasSize.x / 2, g.canvasSize.y / 2⟩ ∧
        (shipPassAux g g.asteroids).ship.velocity = ⟨0, 0⟩ ∧
        (shipPassAux g g.asteroids).ship.rot = 0 ∧
        (shipPassAux g g.asteroids).state = g.state)) ∧
    ((∀ a ∈ g.asteroids, ¬ shipHits g.ship a) → shipPassAux g g.asteroids = g) := by
  constructor
  · intro hex
    have hloss := (shipPassAux_char g g.asteroids).1 hex
    rw [hloss]
    refine ⟨rfl, (loseLife_fields g).1, (loseLife_fields g).2.1, (loseLife_fields g).2.2.1,
      (loseLife_fields g).2.2.2.1, (loseLife_fields g).2.2.2.2.1, ?_⟩
    intro hpos
    rw [loseLife_pos g hpos]
    exact ⟨rfl, rfl, rfl, rfl⟩
  · exact (shipPassAux_char g g.asteroids).2

/-- Witness for C4: an asteroid sitting exactly on the ship causes one life
loss. -/
theorem ship_collision_rule_witness :
    (shipPassAux
      ⟨Ship.init 400 300, [Asteroid.build 0 0 0 400 300 .large], [], .PLAYING, 0, 3, 1, 0,
        ⟨fun _ => 0, 0⟩, ⟨800, 600⟩⟩
      [Asteroid.build 0 0 0 400 300 .large]).lives = 3 - 1 := by
  have hhit : shipHits (Ship.init 400 300) (Asteroid.build 0 0 0 400 300 .large) := by
    unfold shipHits Entity.collidesWith distBetween Entity.position Entity.collisionRadius
    show Real.sqrt ((400 - 400) * (400 - 400) + (300 - 300) * (300 - 300)) <
      Ship.collisionRadius + (Asteroid.build 0 0 0 400 300 ASize.large).collisionRadius
    rw [show ((400:ℝ) - 400) * (400 - 400) + (300 - 300) * (300 - 300) = 0 from by norm_num,
      Real.sqrt_zero]
    show (0:ℝ) < 12 + 20 * (1:ℝ)
    norm_num
  exact ((ship_collision_rule
      ⟨Ship.init 400 300, [Asteroid.build 0 0 0 400 300 .large], [], .PLAYING, 0, 3, 1, 0,
        ⟨fun _ => 0, 0⟩, ⟨800, 600⟩⟩).1
      ⟨Asteroid.build 0 0 0 400 300 .large, List.mem_cons_self _ _, hhit⟩).2.1

/-- Helper: `checkCollisions` in the PLAYING state. -/
theorem checkCollisions_playing (g : Game) (h : g.state = GameState.PLAYING) :
    g.checkCollisions =
      (if (shipPassAux
            { g with
              bullets := (bulletPass g.bullets g.asteroids g.score g.rng).bullets
              asteroids := (bulletPass g.bullets g.asteroids g.score g.rng).asteroids
              score := (bulletPass g.bullets g.asteroids g.score g.rng).score
              rng := (bulletPass g.bullets g.asteroids g.score g.rng).rng }
            (bulletPass g.bullets g.asteroids g.score g.rng).asteroids).asteroids.length = 0
       then (shipPassAux
            { g with
              bullets := (bulletPass g.bullets g.asteroids g.score g.rng).bullets
              asteroids := (bulletPass g.bullets g.asteroids g.score g.rng).asteroids
              score := (bulletPass g.bullets g.asteroids g.score g.rng).score
              rng := (bulletPass g.bullets g.asteroids g.score g.rng).rng }
            (bulletPass g.bullets g.asteroids g.score g.rng).asteroids).nextLevel
       else shipPassAux
            { g with
              bullets := (bulletPass g.bullets g.asteroids g.score g.rng).bullets
              asteroids := (bulletPass g.bullets g.asteroids g.score g.rng).asteroids
              score := (bulletPass g.bullets g.asteroids g.score g.rng).score
              rng := (bulletPass g.bullets g.asteroids g.score g.rng).rng }
            (bulletPass g.bullets g.asteroids g.score g.rng).asteroids) := by
  unfold Game.checkCollisions
  rw [if_neg]
  simp [h]

/-- Helper: the ship pass never changes the level. -/
theorem shipPassAux_level (g : Game) (asts : List Asteroid) :
    (shipPassAux g asts).level = g.level := by
  by_cases hex : ∃ a ∈ asts, shipHits g.ship a
  · rw [(shipPassAux_char g asts).1 hex]
    exact (loseLife_fields g).2.2.2.2.1
  · push_neg at hex
    rw [(shipPassAux_char g asts).2 hex]

/-- Helper: `nextLevel` increments the level and rebuilds 4 + new level
large asteroids; other stats are untouched. -/
theorem nextLevel_spec (g : Game) :
    (g.nextLevel).level = g.level + 1 ∧
    (g.nextLevel).asteroids.length = 4 + (g.level + 1) ∧
    (∀ a ∈ (g.nextLevel).asteroids, a.size = ASize.large) ∧
    (g.nextLevel).score = g.score ∧
    (g.nextLevel).lives = g.lives ∧
    (g.nextLevel).state = g.state := by
  unfold Game.nextLevel Game.createAsteroids
  dsimp only
  exact ⟨rfl, (createAsteroidsAux_spec _ _ _ _ _ _).1, (createAsteroidsAux_spec _ _ _ _ _ _).2,
    rfl, rfl, rfl⟩

/-- C5: when the asteroid collection is empty at the end of the collision
phase of a PLAYING tick, the level counter increments by exactly 1 and a
fresh field of exactly 4 + level large asteroids is created, with level the
updated value; when it is nonempty the level is unchanged. -/
theorem level_clear_rule (g : Game) (h : g.state = GameState.PLAYING) :
    (shipPassAux
        { g with
          bullets := (bulletPass g.bullets g.asteroids g.score g.rng).bullets
          asteroids := (bulletPass g.bullets g.asteroids g.score g.rng).asteroids
          score := (bulletPass g.bullets g.asteroids g.score g.rng).score
          rng := (bulletPass g.bullets g.asteroids g.score g.rng).rng }
        (bulletPass g.bullets g.asteroids g.score g.rng).asteroids).asteroids = [] →
      g.checkCollisions.level = g.level + 1 ∧
      g.checkCollisions.asteroids.length = 4 + (g.level + 1) ∧
      ∀ a ∈ g.checkCollisions.asteroids, a.size = ASize.large := by
  intro hempty
  have hcc := checkCollisions_playing g h
  rw [if_pos (by rw [hempty]; rfl)] at hcc
  set g2 := shipPassAux
      { g with
        bullets := (bulletPass g.bullets g.asteroids g.score g.rng).bullets
        asteroids := (bulletPass g.bullets g.asteroids g.score g.rng).asteroids
        score := (bulletPass g.bullets g.asteroids g.score g.rng).score
        rng := (bulletPass g.bullets g.asteroids g.score g.rng).rng }
      (bulletPass g.bullets g.asteroids g.score g.rng).asteroids with hg2
  have hlevel : g2.level = g.level := by
    rw [hg2]
    exact shipPassAux_level _ _
  rw [hcc]
  refine ⟨?_, ?_, (nextLevel_spec g2).2.2.1⟩
  · rw [(nextLevel_spec g2).1, hlevel]
  · rw [(nextLevel_spec g2).2.1, hlevel]

/-- Witness for C5: a PLAYING game with no bullets and no asteroids levels
up from 1 to 2 and receives 4 + 2 = 6 large asteroids. -/
theorem level_clear_rule_witness :
    (Game.checkCollisions
        ⟨Ship.init 400 300, [], [], .PLAYING, 0, 3, 1, 0, ⟨fun _ => 0, 0⟩, ⟨800, 600⟩⟩).level =
      1 + 1 ∧
    (Game.checkCollisions
        ⟨Ship.init 400 300, [], [], .PLAYING, 0, 3, 1, 0, ⟨fun _ => 0, 0⟩, ⟨800, 600⟩⟩).asteroids.length =
      4 + (1 + 1) :=
  ⟨(level_clear_rule _ rfl (by rfl)).1, (level_clear_rule _ rfl (by rfl)).2.1⟩

/-- Helper: a hit returned by the reverse scan is a colliding member of the
list. -/
theorem findHit_mem (b : Bullet) :
    ∀ (asts : List Asteroid) (j : ℕ) (hit : Asteroid),
      findHit b asts = some (j, hit) → hit ∈ asts ∧ bulletHits b hit := by
  intro asts
  induction asts with
  | nil =>
    intro j hit h
    cases h
  | cons a rest ih =>
    intro j hit h
    cases hfr : findHit b rest with
    | some jh =>
      have hcons : findHit b (a :: rest) = some (jh.1 + 1, jh.2) := by
        simp only [findHit]
        rw [hfr]
      rw [hcons] at h
      have hh : jh.2 = hit := congrArg Prod.snd (Option.some.inj h)
      subst hh
      obtain ⟨hm, hhit⟩ := ih jh.1 jh.2 (by rw [hfr])
      exact ⟨List.mem_cons_of_mem a hm, hhit⟩
    | none =>
      have hcons : findHit b (a :: rest) = if bulletHits b a then some (0, a) else none := by
        simp only [findHit]
        rw [hfr]
      rw [hcons] at h
      by_cases hba : bulletHits b a
      · rw [if_pos hba] at h
        have hh : a = hit := congrArg Prod.snd (Option.some.inj h)
        subst hh
        exact ⟨List.mem_cons_self a rest, hba⟩
      · rw [if_neg hba] at h
        cases h

/-- Helper: the reverse scan returns none exactly when no asteroid in the
list collides with the bullet. -/
theorem findHit_none (b : Bullet) :
    ∀ asts : List Asteroid, (findHit b asts = none ↔ ∀ a ∈ asts, ¬ bulletHits b a) := by
  intro asts
  induction asts with
  | nil =>
    constructor
    · intro _ a ha
      cases ha
    · intro _
      rfl
  | cons a rest ih =>
    cases hfr : findHit b rest with
    | some jh =>
      have hcons : findHit b (a :: rest) = some (jh.1 + 1, jh.2) := by
        simp only [findHit]
        rw [hfr]
      rw [hcons]
      constructor
      · intro h
        cases h
      · intro hall
        obtain ⟨hm, hhit⟩ := findHit_mem b rest jh.1 jh.2 (by rw [hfr])
        exact absurd hhit (hall _ (List.mem_cons_of_mem a hm))
    | none =>
      have hcons : findHit b (a :: rest) = if bulletHits b a then some (0, a) else none := by
        simp only [findHit]
        rw [hfr]
      rw [hcons]
      by_cases hba : bulletHits b a
      · rw [if_pos hba]
        constructor
        · intro h
          cases h
        · intro hall
          exact absurd hba (hall a (List.mem_cons_self a rest))
      · rw [if_neg hba]
        constructor
        · intro _ x hx
          rcases List.mem_cons.mp hx with h | h
          · subst h
            exact hba
          · exact (ih.mp hfr) x h
        · intro _
          rfl

/-- Helper: the reverse scan returns the colliding asteroid of highest
index: the returned index holds the hit, it collides, and nothing at any
higher index collides. -/
theorem findHit_some (b : Bullet) :
    ∀ (asts : List Asteroid) (j : ℕ) (hit : Asteroid),
      findHit b asts = some (j, hit) →
      asts.get? j = some hit ∧ bulletHits b hit ∧
      ∀ k a', j < k → asts.get? k = some a' → ¬ bulletHits b a' := by
  intro asts
  induction asts with
  | nil =>
    intro j hit h
    cases h
  | cons a rest ih =>
    intro j hit h
    cases hfr : findHit b rest with
    | some jh =>
      have hcons : findHit b (a :: rest) = some (jh.1 + 1, jh.2) := by
        simp only [findHit]
        rw [hfr]
      rw [hcons] at h
      have hj : jh.1 + 1 = j := congrArg Prod.fst (Option.some.inj h)
      have hh : jh.2 = hit := congrArg Prod.snd (Option.some.inj h)
      subst hj
      subst hh
      obtain ⟨hget, hhit, hmax⟩ := ih jh.1 jh.2 (by rw [hfr])
      refine ⟨by simpa using hget, hhit, ?_⟩
      intro k a' hk hka
      cases k with
      | zero => exact absurd hk (by omega)
      | succ k0 =>
        have hm : rest.get? k0 = some a' := by simpa using hka
        exact hmax k0 a' (by omega) hm
    | none =>
      have hcons : findHit b (a :: rest) = if bulletHits b a then some (0, a) else none := by
        simp only [findHit]
        rw [hfr]
      rw [hcons] at h
      by_cases hba : bulletHits b a
      · rw [if_pos hba] at h
        have hj : (0:ℕ) = j := congrArg Prod.fst (Option.some.inj h)
        have hh : a = hit := congrArg Prod.snd (Option.some.inj h)
        subst hj
        subst hh
        refine ⟨rfl, hba, ?_⟩
        intro k a' hk hka
        cases k with
        | zero => exact absurd hk (by omega)
        | succ k0 =>
          have hm : rest.get? k0 = some a' := by simpa using hka
          exact (findHit_none b rest).mp hfr a' (List.get?_mem hm)
      · rw [if_neg hba] at h
        cases h

/-- Helper: the bullet pass at the empty bullet list. -/
theorem bulletPass_nil (asts : List Asteroid) (sc : ℕ) (r : Rng) :
    bulletPass [] asts sc r = ⟨[], asts, sc, r⟩ := rfl

/-- Helper: one bullet of the pass when its reverse scan finds no hit. -/
theorem bulletPass_cons_none (b : Bullet) (rest : List Bullet) (asts : List Asteroid)
    (sc : ℕ) (r : Rng) (h : findHit b (bulletPass rest asts sc r).asteroids = none) :
    bulletPass (b :: rest) asts sc r =
      ⟨b :: (bulletPass rest asts sc r).bullets, (bulletPass rest asts sc r).asteroids,
       (bulletPass rest asts sc r).score, (bulletPass rest asts sc r).rng⟩ := by
  simp only [bulletPass]
  rw [h]

/-- Helper: one bullet of the pass when its reverse scan hits asteroid
`hit` at index j: the bullet is dropped, the asteroid is spliced out, the
fragments are pushed at the end, and the score is awarded by size. -/
theorem bulletPass_cons_some (b : Bullet) (rest : List Bullet) (asts : List Asteroid)
    (sc : ℕ) (r : Rng) (j : ℕ) (hit : Asteroid)
    (h : findHit b (bulletPass rest asts sc r).asteroids = some (j, hit)) :
    bulletPass (b :: rest) asts sc r =
      ⟨(bulletPass rest asts sc r).bullets,
       ((bulletPass rest asts sc r).asteroids.eraseIdx j) ++
         (fragments (bulletPass rest asts sc r).rng hit).1,
       (bulletPass rest asts sc r).score + scoreFor hit.size,
       (fragments (bulletPass rest asts sc r).rng hit).2⟩ := by
  simp only [bulletPass]
  rw [h]

/-- Helper: fragmentation of a large asteroid. -/
theorem fragments_large (r : Rng) (a : Asteroid) (h : a.size = ASize.large) :
    ∃ f1 f2 : Asteroid, (fragments r a).1 = [f1, f2] ∧
      f1.size = ASize.medium ∧ f2.size = ASize.medium ∧
      f1.position = a.position ∧ f2.position = a.position := by
  refine ⟨(mkAsteroidR r a.position.x a.position.y .medium).1,
    (mkAsteroidR (mkAsteroidR r a.position.x a.position.y .medium).2
      a.position.x a.position.y .medium).1, ?_, rfl, rfl, rfl, rfl⟩
  unfold fragments
  rw [h]

/-- Helper: fragmentation of a medium asteroid. -/
theorem fragments_medium (r : Rng) (a : Asteroid) (h : a.size = ASize.medium) :
    ∃ f1 f2 : Asteroid, (fragments r a).1 = [f1, f2] ∧
      f1.size = ASize.small ∧ f2.size = ASize.small ∧
      f1.position = a.position ∧ f2.position = a.position := by
  refine ⟨(mkAsteroidR r a.position.x a.position.y .small).1,
    (mkAsteroidR (mkAsteroidR r a.position.x a.position.y .small).2
      a.position.x a.position.y .small).1, ?_, rfl, rfl, rfl, rfl⟩
  unfold fragments
  rw [h]

/-- Helper: a small asteroid leaves no fragments. -/
theorem fragments_small (r : Rng) (a : Asteroid) (h : a.size = ASize.small) :
    (fragments r a).1 = [] := by
  unfold fragments
  rw [h]

/-- C2: in the bullet-asteroid pass, every bullet destroys at most one
asteroid — the colliding asteroid of highest index, i.e. the first found by
the reverse-index scan; on a hit the bullet and that asteroid are removed
from their collections, the score grows by exactly 20, 50 or 100 for a
large, medium or small asteroid (accumulating over several kills in the
same pass since each step adds to the previous step's score), and the
destroyed asteroid spawns exactly 2 medium fragments if large, 2 small
fragments if medium, none if small, each placed at the destroyed
asteroid's position. -/
theorem bullet_collision_rule (b : Bullet) (rest : List Bullet) (asts : List Asteroid)
    (sc : ℕ) (r : Rng) :
    (findHit b (bulletPass rest asts sc r).asteroids = none →
      bulletPass (b :: rest) asts sc r =
        ⟨b :: (bulletPass rest asts sc r).bullets, (bulletPass rest asts sc r).asteroids,
         (bulletPass rest asts sc r).score, (bulletPass rest asts sc r).rng⟩) ∧
    (∀ j hit, findHit b (bulletPass rest asts sc r).asteroids = some (j, hit) →
      (bulletPass (b :: rest) asts sc r).bullets = (bulletPass rest asts sc r).bullets ∧
      (bulletPass (b :: rest) asts sc r).asteroids =
        ((bulletPass rest asts sc r).asteroids.eraseIdx j) ++
          (fragments (bulletPass rest asts sc r).rng hit).1 ∧
      (bulletPass (b :: rest) asts sc r).score =
        (bulletPass rest asts sc r).score + scoreFor hit.size) ∧
    scoreFor ASize.large = 20 ∧ scoreFor ASize.medium = 50 ∧ scoreFor ASize.small = 100 ∧
    (findHit b asts = none ↔ ∀ a ∈ asts, ¬ bulletHits b a) ∧
    (∀ j hit, findHit b asts = some (j, hit) →
      asts.get? j = some hit ∧ bulletHits b hit ∧
      ∀ k a', j < k → asts.get? k = some a' → ¬ bulletHits b a') ∧
    (∀ a : Asteroid, a.size = ASize.large →
      ∃ f1 f2 : Asteroid, (fragments r a).1 = [f1, f2] ∧
        f1.size = ASize.medium ∧ f2.size = ASize.medium ∧
        f1.position = a.position ∧ f2.position = a.position) ∧
    (∀ a : Asteroid, a.size = ASize.medium →
      ∃ f1 f2 : Asteroid, (fragments r a).1 = [f1, f2] ∧
        f1.size = ASize.small ∧ f2.size = ASize.small ∧
        f1.position = a.position ∧ f2.position = a.position) ∧
    (∀ a : Asteroid, a.size = ASize.small → (fragments r a).1 = []) := by
  refine ⟨bulletPass_cons_none b rest asts sc r, ?_, rfl, rfl, rfl, findHit_none b asts,
    findHit_some b asts, fragments_large r, fragments_medium r, fragments_small r⟩
  intro j hit h
  rw [bulletPass_cons_some b rest asts sc r j hit h]
  exact ⟨rfl, rfl, rfl⟩

/-- Witness for C2: one bullet destroying one large asteroid scores 20. -/
theorem bullet_collision_rule_witness :
    (bulletPass [Bullet.build 0 0 0] [Asteroid.build 0 0 0 0 10 .large] 0 ⟨fun _ => 0, 0⟩).score =
      (bulletPass [] [Asteroid.build 0 0 0 0 10 .large] 0 ⟨fun _ => 0, 0⟩).score +
        scoreFor (Asteroid.build 0 0 0 0 10 ASize.large).size := by
  have hhit : bulletHits (Bullet.build 0 0 0) (Asteroid.build 0 0 0 0 10 .large) := by
    unfold bulletHits Entity.collidesWith distBetween Entity.position Entity.collisionRadius
    show Real.sqrt ((0 - 0) * (0 - 0) + (0 - 10) * (0 - 10)) <
      Bullet.collisionRadius + (Asteroid.build 0 0 0 0 10 ASize.large).collisionRadius
    rw [show ((0:ℝ) - 0) * (0 - 0) + (0 - 10) * (0 - 10) = 100 from by norm_num,
      sqrt_eval (b := 10) (by norm_num) (by norm_num)]
    show (10:ℝ) < 2 + 20 * (1:ℝ)
    norm_num
  have hfind : findHit (Bullet.build 0 0 0)
      (bulletPass [] [Asteroid.build 0 0 0 0 10 .large] 0 ⟨fun _ => 0, 0⟩).asteroids =
      some (0, Asteroid.build 0 0 0 0 10 .large) := by
    show findHit (Bullet.build 0 0 0) [Asteroid.build 0 0 0 0 10 .large] = _
    rw [show findHit (Bullet.build 0 0 0) [Asteroid.build 0 0 0 0 10 .large] =
        if bulletHits (Bullet.build 0 0 0) (Asteroid.build 0 0 0 0 10 .large)
        then some (0, Asteroid.build 0 0 0 0 10 .large) else none from rfl,
      if_pos hhit]
  exact ((bullet_collision_rule (Bullet.build 0 0 0) [] [Asteroid.build 0 0 0 0 10 .large] 0
      ⟨fun _ => 0, 0⟩).2.1 0 (Asteroid.build 0 0 0 0 10 .large) hfind).2.2

/-- Helper: `handleInput` in the PLAYING state as a single conditional. -/
theorem handleInput_playing (dt : ℝ) (inp : Input) (g : Game)
    (h : g.state = GameState.PLAYING) :
    g.handleInput dt inp =
      if inp.fire = true ∧ g.fireDelay - dt ≤ 0 then
        { g with
          ship := steer inp g.ship
          bullets := g.bullets ++
            [Bullet.build (steer inp g.ship).position.x (steer inp g.ship).position.y
              (steer inp g.ship).rot]
          fireDelay := Game.maxFireDelay }
      else { g with ship := steer inp g.ship, fireDelay := g.fireDelay - dt } := by
  unfold Game.handleInput Game.fireBullet
  rw [if_neg (show ¬(g.state ≠ GameState.PLAYING) from by simp [h])]

/-- Helper: the iterated `handleInput` trace keeps the game state. -/
theorem fireTrace_state (inp : Input) (dts : ℕ → ℝ) (g0 : Game) :
    ∀ n, (fireTrace inp dts g0 n).state = g0.state := by
  intro n
  induction n with
  | zero => rfl
  | succ n ih =>
    show (Game.handleInput (dts n) inp (fireTrace inp dts g0 n)).state = g0.state
    rw [handleInput_state, ih]

/-- Helper: with the fire key held on a PLAYING trace, tick n spawns exactly
when the decremented cooldown is ≤ 0; a spawn resets the cooldown to
`maxFireDelay` and otherwise the cooldown decreases by the tick's
deltaTime. -/
theorem spawnedAt_iff (inp : Input) (dts : ℕ → ℝ) (g0 : Game)
    (hst : g0.state = GameState.PLAYING) (hf : inp.fire = true) (n : ℕ) :
    (spawnedAt inp dts g0 n ↔ (fireTrace inp dts g0 n).fireDelay - dts n ≤ 0) ∧
    (spawnedAt inp dts g0 n →
      (fireTrace inp dts g0 (n + 1)).fireDelay = Game.maxFireDelay) ∧
    (¬ spawnedAt inp dts g0 n →
      (fireTrace inp dts g0 (n + 1)).fireDelay =
        (fireTrace inp dts g0 n).fireDelay - dts n) := by
  have hsn : (fireTrace inp dts g0 n).state = GameState.PLAYING := by
    rw [fireTrace_state, hst]
  have hup := handleInput_playing (dts n) inp (fireTrace inp dts g0 n) hsn
  have htr : fireTrace inp dts g0 (n + 1) =
      Game.handleInput (dts n) inp (fireTrace inp dts g0 n) := rfl
  by_cases hc : (fireTrace inp dts g0 n).fireDelay - dts n ≤ 0
  · rw [if_pos ⟨hf, hc⟩] at hup
    have hspawn : spawnedAt inp dts g0 n := by
      unfold spawnedAt
      rw [htr, hup]
      simp
    refine ⟨⟨fun _ => hc, fun _ => hspawn⟩, fun _ => ?_, fun hns => absurd hspawn hns⟩
    rw [htr, hup]
  · have hnc : ¬(inp.fire = true ∧ (fireTrace inp dts g0 n).fireDelay - dts n ≤ 0) := by
      intro hand
      exact hc hand.2
    rw [if_neg hnc] at hup
    have hnspawn : ¬ spawnedAt inp dts g0 n := by
      unfold spawnedAt
      rw [htr, hup]
      simp
    refine ⟨⟨fun hs => absurd hs hnspawn, fun hcd => absurd hcd hc⟩,
      fun hs => absurd hs hnspawn, fun _ => ?_⟩
    rw [htr, hup]

/-- C8: a bullet is spawned by `handleInput` only in PLAYING with the
decremented cooldown ≤ 0, a spawn resets the cooldown to exactly 0.15 and
appends exactly one bullet, the cooldown is decremented by deltaTime on
every PLAYING frame regardless of firing, nothing happens outside PLAYING;
and on any trace of PLAYING ticks with the fire key continuously held, two
consecutive spawns are separated by at least 0.15 of accumulated
deltaTime. -/
theorem fire_rate_rule (g : Game) (dt : ℝ) (inp : Input) (dts : ℕ → ℝ) (g0 : Game) :
    (g.state = GameState.PLAYING → inp.fire = true → g.fireDelay - dt ≤ 0 →
      (g.handleInput dt inp).fireDelay = 0.15 ∧
      (g.handleInput dt inp).bullets.length = g.bullets.length + 1) ∧
    (g.state = GameState.PLAYING → ¬(inp.fire = true ∧ g.fireDelay - dt ≤ 0) →
      (g.handleInput dt inp).fireDelay = g.fireDelay - dt ∧
      (g.handleInput dt inp).bullets = g.bullets) ∧
    (g.state ≠ GameState.PLAYING → g.handleInput dt inp = g) ∧
    (g0.state = GameState.PLAYING → inp.fire = true →
      ∀ m n : ℕ, m < n → spawnedAt inp dts g0 m → spawnedAt inp dts g0 n →
        (∀ k, m < k → k < n → ¬ spawnedAt inp dts g0 k) →
        0.15 ≤ ∑ i in Finset.Ico (m + 1) (n + 1), dts i) := by
  refine ⟨?_, ?_, handleInput_not_playing dt inp g, ?_⟩
  · intro hst hf hcd
    rw [handleInput_playing dt inp g hst, if_pos ⟨hf, hcd⟩]
    constructor
    · rfl
    · simp
  · intro hst hnc
    rw [handleInput_playing dt inp g hst, if_neg hnc]
    exact ⟨rfl, rfl⟩
  · intro hst hf m n hmn hm hn hno
    have hdm : (fireTrace inp dts g0 (m + 1)).fireDelay = Game.maxFireDelay :=
      (spawnedAt_iff inp dts g0 hst hf m).2.1 hm
    have key : ∀ t, m + 1 + t ≤ n →
        (fireTrace inp dts g0 (m + 1 + t)).fireDelay =
          0.15 - ∑ i in Finset.Ico (m + 1) (m + 1 + t), dts i := by
      intro t
      induction t with
      | zero =>
        intro _
        simpa [Game.maxFireDelay] using hdm
      | succ t ih =>
        intro hle
        have hkn : m + 1 + t < n := by omega
        have hnos : ¬ spawnedAt inp dts g0 (m + 1 + t) := hno _ (by omega) hkn
        have hstep := (spawnedAt_iff inp dts g0 hst hf (m + 1 + t)).2.2 hnos
        have hidx : m + 1 + (t + 1) = (m + 1 + t) + 1 := by omega
        rw [hidx, hstep, ih (by omega),
          Finset.sum_Ico_succ_top (show m + 1 ≤ m + 1 + t from by omega)]
        ring
    have hdn : (fireTrace inp dts g0 n).fireDelay =
        0.15 - ∑ i in Finset.Ico (m + 1) n, dts i := by
      have hk := key (n - (m + 1)) (by omega)
      rwa [show m + 1 + (n - (m + 1)) = n from by omega] at hk
    have hcond : (fireTrace inp dts g0 n).fireDelay - dts n ≤ 0 :=
      (spawnedAt_iff inp dts g0 hst hf n).1.mp hn
    rw [hdn] at hcond
    rw [Finset.sum_Ico_succ_top (show m + 1 ≤ n from by omega)]
    linarith

/-- Witness for C8: holding fire with deltaTime 1 per tick spawns at ticks
0 and 1, and the theorem yields the 0.15-second separation bound. -/
theorem fire_rate_rule_witness :
    0.15 ≤ ∑ i in Finset.Ico (0 + 1) (1 + 1), (fun _ => (1:ℝ)) i := by
  have hst : (⟨Ship.init 0 0, [], [], .PLAYING, 0, 3, 1, 0, ⟨fun _ => 0, 0⟩,
      ⟨800, 600⟩⟩ : Game).state = GameState.PLAYING := rfl
  have hf : (⟨false, false, false, true⟩ : Input).fire = true := rfl
  have hs0 : spawnedAt ⟨false, false, false, true⟩ (fun _ => (1:ℝ))
      ⟨Ship.init 0 0, [], [], .PLAYING, 0, 3, 1, 0, ⟨fun _ => 0, 0⟩, ⟨800, 600⟩⟩ 0 := by
    refine (spawnedAt_iff _ _ _ hst hf 0).1.mpr ?_
    show (0:ℝ) - 1 ≤ 0
    norm_num
  have hs1 : spawnedAt ⟨false, false, false, true⟩ (fun _ => (1:ℝ))
      ⟨Ship.init 0 0, [], [], .PLAYING, 0, 3, 1, 0, ⟨fun _ => 0, 0⟩, ⟨800, 600⟩⟩ 1 := by
    refine (spawnedAt_iff _ _ _ hst hf 1).1.mpr ?_
    rw [(spawnedAt_iff _ _ _ hst hf 0).2.1 hs0]
    show Game.maxFireDelay - 1 ≤ 0
    norm_num [Game.maxFireDelay]
  exact (fire_rate_rule
      ⟨Ship.init 0 0, [], [], .PLAYING, 0, 3, 1, 0, ⟨fun _ => 0, 0⟩, ⟨800, 600⟩⟩ 1
      ⟨false, false, false, true⟩ (fun _ => (1:ℝ))
      ⟨Ship.init 0 0, [], [], .PLAYING, 0, 3, 1, 0, ⟨fun _ => 0, 0⟩, ⟨800, 600⟩⟩).2.2.2
      hst hf 0 1 (by omega) hs0 hs1 (by intro k h1 h2; omega)

/-- Helper: the wrap of each axis lands in [0, bound]. -/
theorem wrapCoord_mem (bound c : ℝ) (h : 0 ≤ bound) :
    0 ≤ wrapCoord bound c ∧ wrapCoord bound c ≤ bound := by
  rw [wrapCoord_eq]
  split_ifs with h1 h2 <;> constructor <;> linarith

/-- Helper: a wrapped position lands in the canvas box. -/
theorem wrapPosition_inBox (cs p : Vec2) (hx : 0 ≤ cs.x) (hy : 0 ≤ cs.y) :
    inBox cs.x cs.y (wrapPosition cs p) := by
  unfold wrapPosition inBox
  dsimp only
  exact ⟨(wrapCoord_mem cs.x p.x hx).1, (wrapCoord_mem cs.x p.x hx).2,
    (wrapCoord_mem cs.y p.y hy).1, (wrapCoord_mem cs.y p.y hy).2⟩

/-- Helper: the ship always ends an update at a wrapped position. -/
theorem ship_update_pos (dt : ℝ) (cs : Vec2) (s : Ship) :
    ∃ p : Vec2, (Ship.update dt cs s).position = wrapPosition cs p :=
  ⟨_, rfl⟩

/-- Helper: an asteroid always ends an update at a wrapped position. -/
theorem asteroid_update_pos (dt : ℝ) (cs : Vec2) (a : Asteroid) :
    ∃ p : Vec2, (Asteroid.update dt cs a).position = wrapPosition cs p :=
  ⟨_, rfl⟩

/-- Helper: a bullet ends an update at a wrapped position or exactly where
it was (expiry branch). -/
theorem bullet_update_pos (dt : ℝ) (cs : Vec2) (b : Bullet) :
    (∃ p : Vec2, (Bullet.update dt cs b).position = wrapPosition cs p) ∨
      (Bullet.update dt cs b).position = b.position := by
  rw [bullet_update_eq]
  split_ifs
  · right
    rfl
  · left
    exact ⟨_, rfl⟩

/-- Helper: the ship-control block never moves the ship. -/
theorem steer_pos (inp : Input) (s : Ship) : (steer inp s).position = s.position := by
  unfold steer Ship.setThrust Ship.rotate
  dsimp only
  split_ifs <;> rfl

/-- Helper: the asteroid constructor places the asteroid at the given point
and only advances the stream index. -/
theorem mkAsteroidR_spec (r : Rng) (x y : ℝ) (size : ASize) :
    (mkAsteroidR r x y size).1.position = ⟨x, y⟩ ∧ (mkAsteroidR r x y size).2.seq = r.seq :=
  ⟨rfl, rfl⟩

/-- Helper: the sampled spawn position is a pair of stream draws scaled by
the canvas, and sampling only advances the stream index. -/
theorem pickPos_spec (r : Rng) (W H sx sy : ℝ) :
    (∃ i j : ℕ, (pickPos r W H sx sy).1 = (r.seq i * W, r.seq j * H)) ∧
    (pickPos r W H sx sy).2.seq = r.seq := by
  unfold pickPos
  by_cases h : ∃ k, ¬(|r.seq (r.idx + 2 * k) * W - sx| < 100 ∧ |r.seq (r.idx + 2 * k + 1) * H - sy| < 100)
  · rw [dif_pos h]
    exact ⟨⟨_, _, rfl⟩, rfl⟩
  · rw [dif_neg h]
    exact ⟨⟨_, _, rfl⟩, rfl⟩

/-- Helper: a stream draw scaled by a nonnegative bound lands in [0, bound]
when the draw lies in [0, 1). -/
theorem draw_scaled_mem (u bound : ℝ) (hu : 0 ≤ u ∧ u < 1) (hb : 0 ≤ bound) :
    0 ≤ u * bound ∧ u * bound ≤ bound :=
  ⟨mul_nonneg hu.1 hb, mul_le_of_le_one_left hb (le_of_lt hu.2)⟩

/-- Helper: every asteroid made by the creation loop sits inside the canvas
box, and the loop only advances the stream index. -/
theorem createAsteroidsAux_inBox (W H sx sy : ℝ) (hW : 0 ≤ W) (hH : 0 ≤ H) :
    ∀ (n : ℕ) (r : Rng), (∀ k, 0 ≤ r.seq k ∧ r.seq k < 1) →
      (∀ a ∈ (createAsteroidsAux W H sx sy n r).1, inBox W H a.position) ∧
      (createAsteroidsAux W H sx sy n r).2.seq = r.seq := by
  intro n
  induction n with
  | zero =>
    intro r _
    exact ⟨(by intro a ha; cases ha), rfl⟩
  | succ n ih =>
    intro r hseq
    unfold createAsteroidsAux
    dsimp only
    obtain ⟨⟨i, j, hshape⟩, hpseq⟩ := pickPos_spec r W H sx sy
    have hseq2 : ∀ k, 0 ≤ (mkAsteroidR (pickPos r W H sx sy).2 (pickPos r W H sx sy).1.1
        (pickPos r W H sx sy).1.2 ASize.large).2.seq k ∧
        (mkAsteroidR (pickPos r W H sx sy).2 (pickPos r W H sx sy).1.1
        (pickPos r W H sx sy).1.2 ASize.large).2.seq k < 1 := by
      intro k
      rw [(mkAsteroidR_spec _ _ _ _).2, hpseq]
      exact hseq k
    constructor
    · intro a ha
      rcases List.mem_cons.mp ha with h | h
      · subst h
        rw [(mkAsteroidR_spec _ _ _ _).1]
        have hx : (pickPos r W H sx sy).1.1 = r.seq i * W := congrArg Prod.fst hshape
        have hy : (pickPos r W H sx sy).1.2 = r.seq j * H := congrArg Prod.snd hshape
        unfold inBox
        dsimp only
        rw [hx, hy]
        exact ⟨(draw_scaled_mem _ _ (hseq i) hW).1, (draw_scaled_mem _ _ (hseq i) hW).2,
          (draw_scaled_mem _ _ (hseq j) hH).1, (draw_scaled_mem _ _ (hseq j) hH).2⟩
      · exact (ih _ hseq2).1 a h
    · rw [(ih _ hseq2).2, (mkAsteroidR_spec _ _ _ _).2, hpseq]

/-- Helper: every fragment sits at the destroyed asteroid's position, and
fragmentation only advances the stream index. -/
theorem fragments_pos (r : Rng) (a : Asteroid) :
    (∀ f ∈ (fragments r a).1, f.position = a.position) ∧ (fragments r a).2.seq = r.seq := by
  cases ha : a.size with
  | large =>
    unfold fragments
    rw [ha]
    dsimp only
    refine ⟨?_, rfl⟩
    intro f hf
    rcases List.mem_cons.mp hf with h | h
    · subst h
      rfl
    · rcases List.mem_cons.mp h with h2 | h2
      · subst h2
        rfl
      · cases h2
  | medium =>
    unfold fragments
    rw [ha]
    dsimp only
    refine ⟨?_, rfl⟩
    intro f hf
    rcases List.mem_cons.mp hf with h | h
    · subst h
      rfl
    · rcases List.mem_cons.mp h with h2 | h2
      · subst h2
        rfl
      · cases h2
  | small =>
    unfold fragments
    rw [ha]
    exact ⟨(by intro f hf; cases hf), rfl⟩

/-- Helper: the bullet pass keeps only bullets that were already there,
every surviving or fragment asteroid sits at the position of some input
asteroid, and the pass only advances the stream index. -/
theorem bulletPass_pos (asts : List Asteroid) (sc : ℕ) (r : Rng) :
    ∀ bs : List Bullet,
      (∀ bb ∈ (bulletPass bs asts sc r).bullets, bb ∈ bs) ∧
      (∀ a ∈ (bulletPass bs asts sc r).asteroids, ∃ a0 ∈ asts, a.position = a0.position) ∧
      (bulletPass bs asts sc r).rng.seq = r.seq := by
  intro bs
  induction bs with
  | nil =>
    refine ⟨(by intro bb hbb; cases hbb), ?_, rfl⟩
    intro a ha
    exact ⟨a, ha, rfl⟩
  | cons b rest ih =>
    cases hf : findHit b (bulletPass rest asts sc r).asteroids with
    | none =>
      rw [bulletPass_cons_none b rest asts sc r hf]
      refine ⟨?_, ?_, ?_⟩
      · intro bb hbb
        rcases List.mem_cons.mp hbb with h | h
        · rw [h]
          exact List.mem_cons_self _ _
        · exact List.mem_cons_of_mem b (ih.1 bb h)
      · exact ih.2.1
      · exact ih.2.2
    | some jh =>
      have hf2 : findHit b (bulletPass rest asts sc r).asteroids = some (jh.1, jh.2) := hf
      rw [bulletPass_cons_some b rest asts sc r jh.1 jh.2 hf2]
      refine ⟨?_, ?_, ?_⟩
      · intro bb hbb
        exact List.mem_cons_of_mem b (ih.1 bb hbb)
      · intro a ha
        rcases List.mem_append.mp ha with h | h
        · exact ih.2.1 a (List.eraseIdx_subset _ _ h)
        · obtain ⟨hm, -⟩ := findHit_mem b _ jh.1 jh.2 hf
          obtain ⟨a0, ha0, hpos⟩ := ih.2.1 jh.2 hm
          refine ⟨a0, ha0, ?_⟩
          rw [(fragments_pos (bulletPass rest asts sc r).rng jh.2).1 a h, hpos]
      · rw [(fragments_pos (bulletPass rest asts sc r).rng jh.2).2, ih.2.2]

/-- Helper: introduction form of the in-bounds predicate. -/
theorem inBounds_mk (g : Game)
    (h1 : inBox g.canvasSize.x g.canvasSize.y g.ship.position)
    (h2 : ∀ a ∈ g.asteroids, inBox g.canvasSize.x g.canvasSize.y a.position)
    (h3 : ∀ b ∈ g.bullets, inBox g.canvasSize.x g.canvasSize.y b.position) :
    g.InBounds :=
  ⟨h1, h2, h3⟩

/-- Helper: `handleInput` preserves the in-bounds invariant: the only new
entity is a bullet spawned at the (unmoved) ship position. -/
theorem handleInput_inBounds (dt : ℝ) (inp : Input) (g : Game) (hib : g.InBounds) :
    (g.handleInput dt inp).InBounds := by
  by_cases h : g.state = GameState.PLAYING
  · rw [handleInput_playing dt inp g h]
    obtain ⟨hs, ha, hb⟩ := hib
    split_ifs with hc
    · refine inBounds_mk _ ?_ ?_ ?_
      · show inBox g.canvasSize.x g.canvasSize.y (steer inp g.ship).position
        rw [steer_pos]
        exact hs
      · exact ha
      · intro bb hbb
        rcases List.mem_append.mp hbb with hm | hm
        · exact hb bb hm
        · rw [List.mem_singleton.mp hm]
          show inBox g.canvasSize.x g.canvasSize.y
            (⟨(steer inp g.ship).position.x, (steer inp g.ship).position.y⟩ : Vec2)
          rw [steer_pos]
          exact hs
    · refine inBounds_mk _ ?_ ha hb
      show inBox g.canvasSize.x g.canvasSize.y (steer inp g.ship).position
      rw [steer_pos]
      exact hs
  · rw [handleInput_not_playing dt inp g h]
    exact hib

/-- Helper: `updateGameObjects` preserves the in-bounds invariant on a
nonnegative canvas: moved entities are wrapped, expired bullets keep their
old position. -/
theorem updateGameObjects_inBounds (dt : ℝ) (g : Game)
    (hx : 0 ≤ g.canvasSize.x) (hy : 0 ≤ g.canvasSize.y) (hib : g.InBounds) :
    (g.updateGameObjects dt).InBounds := by
  by_cases h : g.state = GameState.PLAYING
  · rw [updateGameObjects_playing dt g h]
    obtain ⟨hs, ha, hb⟩ := hib
    refine inBounds_mk _ ?_ ?_ ?_
    · show inBox g.canvasSize.x g.canvasSize.y (g.ship.update dt g.canvasSize).position
      obtain ⟨p, hp⟩ := ship_update_pos dt g.canvasSize g.ship
      rw [hp]
      exact wrapPosition_inBox _ _ hx hy
    · intro a ha2
      obtain ⟨a0, ha0, haeq⟩ := List.mem_map.mp ha2
      show inBox g.canvasSize.x g.canvasSize.y a.position
      rw [← haeq]
      obtain ⟨p, hp⟩ := asteroid_update_pos dt g.canvasSize a0
      rw [hp]
      exact wrapPosition_inBox _ _ hx hy
    · intro bb hbb
      have hm := (List.mem_filter.mp hbb).1
      obtain ⟨b0, hb0, hbeq⟩ := List.mem_map.mp hm
      show inBox g.canvasSize.x g.canvasSize.y bb.position
      rw [← hbeq]
      rcases bullet_update_pos dt g.canvasSize b0 with ⟨p, hp⟩ | hp
      · rw [hp]
        exact wrapPosition_inBox _ _ hx hy
      · rw [hp]
        exact hb b0 hb0
  · rw [updateGameObjects_not_playing dt g h]
    exact hib

/-- Helper: `loseLife` keeps the random stream and the ship either stays put
or is recentered. -/
theorem loseLife_rng_ship (g : Game) :
    (g.loseLife).rng = g.rng ∧
    ((g.loseLife).ship = g.ship ∨
      (g.loseLife).ship.position = ⟨g.canvasSize.x / 2, g.canvasSize.y / 2⟩) := by
  unfold Game.loseLife
  dsimp only
  split_ifs
  · exact ⟨rfl, Or.inl rfl⟩
  · exact ⟨rfl, Or.inr rfl⟩

/-- Helper: the canvas center is in the canvas box. -/
theorem center_inBox (W H : ℝ) (hW : 0 ≤ W) (hH : 0 ≤ H) :
    inBox W H ⟨W / 2, H / 2⟩ := by
  unfold inBox
  dsimp only
  refine ⟨by linarith, by linarith, by linarith, by linarith⟩

/-- Helper: the ship pass preserves the bounds invariant, the canvas size
and the random stream. -/
theorem shipPassAux_pres (g : Game) (asts : List Asteroid)
    (hx : 0 ≤ g.canvasSize.x) (hy : 0 ≤ g.canvasSize.y) (hib : g.InBounds) :
    (shipPassAux g asts).canvasSize = g.canvasSize ∧
    (shipPassAux g asts).rng = g.rng ∧
    (shipPassAux g asts).InBounds := by
  by_cases hex : ∃ a ∈ asts, shipHits g.ship a
  · rw [(shipPassAux_char g asts).1 hex]
    obtain ⟨hs, ha, hb⟩ := hib
    refine ⟨(loseLife_fields g).2.2.2.2.2, (loseLife_rng_ship g).1, inBounds_mk _ ?_ ?_ ?_⟩
    · rw [(loseLife_fields g).2.2.2.2.2]
      rcases (loseLife_rng_ship g).2 with hsh | hsh
      · rw [hsh]
        exact hs
      · rw [hsh]
        exact center_inBox _ _ hx hy
    · rw [(loseLife_fields g).2.2.2.2.2, (loseLife_fields g).2.1]
      exact ha
    · rw [(loseLife_fields g).2.2.2.2.2, (loseLife_fields g).2.2.1]
      exact hb
  · push_neg at hex
    rw [(shipPassAux_char g asts).2 hex]
    exact ⟨rfl, rfl, ⟨hib.1, hib.2.1, hib.2.2⟩⟩

/-- Helper: `nextLevel` preserves the canvas, the random stream and the
bounds invariant: the fresh field is sampled inside the canvas. -/
theorem nextLevel_pres (g : Game) (hx : 0 ≤ g.canvasSize.x) (hy : 0 ≤ g.canvasSize.y)
    (hseq : ∀ k, 0 ≤ g.rng.seq k ∧ g.rng.seq k < 1) (hib : g.InBounds) :
    (g.nextLevel).canvasSize = g.canvasSize ∧
    (g.nextLevel).rng.seq = g.rng.seq ∧
    (g.nextLevel).InBounds := by
  unfold Game.nextLevel Game.createAsteroids
  dsimp only
  refine ⟨rfl, (createAsteroidsAux_inBox g.canvasSize.x g.canvasSize.y g.ship.position.x
      g.ship.position.y hx hy (4 + (g.level + 1)) g.rng hseq).2, inBounds_mk _ ?_ ?_ ?_⟩
  · exact hib.1
  · exact (createAsteroidsAux_inBox g.canvasSize.x g.canvasSize.y g.ship.position.x
      g.ship.position.y hx hy (4 + (g.level + 1)) g.rng hseq).1
  · exact hib.2.2

/-- Helper: `checkCollisions` preserves the canvas, the random stream and
the bounds invariant. -/
theorem checkCollisions_pres (g : Game) (hx : 0 ≤ g.canvasSize.x) (hy : 0 ≤ g.canvasSize.y)
    (hseq : ∀ k, 0 ≤ g.rng.seq k ∧ g.rng.seq k < 1) (hib : g.InBounds) :
    (g.checkCollisions).canvasSize = g.canvasSize ∧
    (g.checkCollisions).rng.seq = g.rng.seq ∧
    (g.checkCollisions).InBounds := by
  by_cases h : g.state = GameState.PLAYING
  · rw [checkCollisions_playing g h]
    have hbp := bulletPass_pos g.asteroids g.score g.rng g.bullets
    obtain ⟨hs, ha, hb⟩ := hib
    have h1ib : (({ g with
        bullets := (bulletPass g.bullets g.asteroids g.score g.rng).bullets
        asteroids := (bulletPass g.bullets g.asteroids g.score g.rng).asteroids
        score := (bulletPass g.bullets g.asteroids g.score g.rng).score
        rng := (bulletPass g.bullets g.asteroids g.score g.rng).rng } : Game)).InBounds := by
      refine inBounds_mk _ hs ?_ ?_
      · intro a ha2
        obtain ⟨a0, ha0, hpos⟩ := hbp.2.1 a ha2
        show inBox g.canvasSize.x g.canvasSize.y a.position
        rw [hpos]
        exact ha a0 ha0
      · intro bb hbb
        exact hb bb (hbp.1 bb hbb)
    have hpass := shipPassAux_pres
      { g with
        bullets := (bulletPass g.bullets g.asteroids g.score g.rng).bullets
        asteroids := (bulletPass g.bullets g.asteroids g.score g.rng).asteroids
        score := (bulletPass g.bullets g.asteroids g.score g.rng).score
        rng := (bulletPass g.bullets g.asteroids g.score g.rng).rng }
      (bulletPass g.bullets g.asteroids g.score g.rng).asteroids hx hy h1ib
    split_ifs with hlen
    · have hnx : 0 ≤ (shipPassAux
          { g with
            bullets := (bulletPass g.bullets g.asteroids g.score g.rng).bullets
            asteroids := (bulletPass g.bullets g.asteroids g.score g.rng).asteroids
            score := (bulletPass g.bullets g.asteroids g.score g.rng).score
            rng := (bulletPass g.bullets g.asteroids g.score g.rng).rng }
          (bulletPass g.bullets g.asteroids g.score g.rng).asteroids).canvasSize.x := by
        rw [hpass.1]
        exact hx
      have hny : 0 ≤ (shipPassAux
          { g with
            bullets := (bulletPass g.bullets g.asteroids g.score g.rng).bullets
            asteroids := (bulletPass g.bullets g.asteroids g.score g.rng).asteroids
            score := (bulletPass g.bullets g.asteroids g.score g.rng).score
            rng := (bulletPass g.bullets g.asteroids g.score g.rng).rng }
          (bulletPass g.bullets g.asteroids g.score g.rng).asteroids).canvasSize.y := by
        rw [hpass.1]
        exact hy
      have hnseq : ∀ k, 0 ≤ (shipPassAux
          { g with
            bullets := (bulletPass g.bullets g.asteroids g.score g.rng).bullets
            asteroids := (bulletPass g.bullets g.asteroids g.score g.rng).asteroids
            score := (bulletPass g.bullets g.asteroids g.score g.rng).score
            rng := (bulletPass g.bullets g.asteroids g.score g.rng).rng }
          (bulletPass g.bullets g.asteroids g.score g.rng).asteroids).rng.seq k ∧
          (shipPassAux
          { g with
            bullets := (bulletPass g.bullets g.asteroids g.score g.rng).bullets
            asteroids := (bulletPass g.bullets g.asteroids g.score g.rng).asteroids
            score := (bulletPass g.bullets g.asteroids g.score g.rng).score
            rng := (bulletPass g.bullets g.asteroids g.score g.rng).rng }
          (bulletPass g.bullets g.asteroids g.score g.rng).asteroids).rng.seq k < 1 := by
        intro k
        rw [hpass.2.1]
        show 0 ≤ (bulletPass g.bullets g.asteroids g.score g.rng).rng.seq k ∧ _
        rw [hbp.2.2]
        exact hseq k
      have hnl := nextLevel_pres _ hnx hny hnseq hpass.2.2
      refine ⟨?_, ?_, hnl.2.2⟩
      · rw [hnl.1, hpass.1]
      · rw [hnl.2.1, hpass.2.1]
        show (bulletPass g.bullets g.asteroids g.score g.rng).rng.seq = g.rng.seq
        exact hbp.2.2
    · refine ⟨hpass.1, ?_, hpass.2.2⟩
      rw [hpass.2.1]
      exact hbp.2.2
  · rw [checkCollisions_not_playing g h]
    exact ⟨rfl, rfl, ⟨hib.1, hib.2.1, hib.2.2⟩⟩

/-- Helper: `setupGame` recenters the ship and samples the asteroid field
inside the canvas; bullets are whatever they were. -/
theorem setupGame_pres (g : Game) (hx : 0 ≤ g.canvasSize.x) (hy : 0 ≤ g.canvasSize.y)
    (hseq : ∀ k, 0 ≤ g.rng.seq k ∧ g.rng.seq k < 1)
    (hbul : ∀ b ∈ g.bullets, inBox g.canvasSize.x g.canvasSize.y b.position) :
    (g.setupGame).canvasSize = g.canvasSize ∧
    (g.setupGame).rng.seq = g.rng.seq ∧
    (g.setupGame).InBounds := by
  unfold Game.setupGame Game.createAsteroids
  dsimp only
  refine ⟨rfl, (createAsteroidsAux_inBox g.canvasSize.x g.canvasSize.y
      (Ship.init (g.canvasSize.x / 2) (g.canvasSize.y / 2)).position.x
      (Ship.init (g.canvasSize.x / 2) (g.canvasSize.y / 2)).position.y
      hx hy (4 + g.level) g.rng hseq).2, inBounds_mk _ ?_ ?_ ?_⟩
  · show inBox g.canvasSize.x g.canvasSize.y
      (Ship.init (g.canvasSize.x / 2) (g.canvasSize.y / 2)).position
    exact center_inBox _ _ hx hy
  · exact (createAsteroidsAux_inBox g.canvasSize.x g.canvasSize.y
      (Ship.init (g.canvasSize.x / 2) (g.canvasSize.y / 2)).position.x
      (Ship.init (g.canvasSize.x / 2) (g.canvasSize.y / 2)).position.y
      hx hy (4 + g.level) g.rng hseq).1
  · exact hbul

/-- Helper: the Space keydown handler preserves the canvas, the random
stream and the bounds invariant. -/
theorem keySpace_pres (g : Game) (hx : 0 ≤ g.canvasSize.x) (hy : 0 ≤ g.canvasSize.y)
    (hseq : ∀ k, 0 ≤ g.rng.seq k ∧ g.rng.seq k < 1) (hib : g.InBounds) :
    (g.keySpace).canvasSize = g.canvasSize ∧
    (g.keySpace).rng.seq = g.rng.seq ∧
    (g.keySpace).InBounds := by
  unfold Game.keySpace
  cases hst : g.state
  · exact ⟨rfl, rfl, ⟨hib.1, hib.2.1, hib.2.2⟩⟩
  · exact ⟨rfl, rfl, ⟨hib.1, hib.2.1, hib.2.2⟩⟩
  · show (Game.resetGame g).canvasSize = g.canvasSize ∧ _
    unfold Game.resetGame
    have hres := setupGame_pres
      { g with score := 0, lives := 3, level := 1, state := GameState.READY, bullets := [] }
      hx hy hseq (by intro b hb; cases hb)
    exact ⟨hres.1, hres.2.1, hres.2.2⟩
  · exact ⟨rfl, rfl, ⟨hib.1, hib.2.1, hib.2.2⟩⟩

/-- Helper: the P keydown handler preserves the canvas, the random stream
and the bounds invariant (it only ever changes the state field). -/
theorem keyP_pres (g : Game) (hib : g.InBounds) :
    (g.keyP).canvasSize = g.canvasSize ∧
    (g.keyP).rng.seq = g.rng.seq ∧
    (g.keyP).InBounds := by
  unfold Game.keyP
  cases hst : g.state <;>
    exact ⟨rfl, rfl, ⟨hib.1, hib.2.1, hib.2.2⟩⟩

/-- Helper: every state reachable from the constructor keeps the canvas
size, keeps the random stream, and has all entities inside the canvas,
provided the canvas is nonnegative and every random draw lies in [0, 1). -/
theorem reachable_inBounds (W H : ℝ) (seq : ℕ → ℝ) (hW : 0 ≤ W) (hH : 0 ≤ H)
    (hseq : ∀ n, 0 ≤ seq n ∧ seq n < 1) :
    ∀ g : Game, Game.Reachable W H seq g →
      g.canvasSize = ⟨W, H⟩ ∧ g.rng.seq = seq ∧ g.InBounds := by
  intro g hre
  induction hre with
  | init =>
    unfold Game.init
    have hres := setupGame_pres
      ⟨Ship.init (W / 2) (H / 2), [], [], .READY, 0, 3, 1, 0, ⟨seq, 0⟩, ⟨W, H⟩⟩
      hW hH hseq (by intro b hb; cases hb)
    exact ⟨hres.1, hres.2.1, hres.2.2⟩
  | tick dt inp hr ih =>
    obtain ⟨hcs, hrs, hib⟩ := ih
    rename_i g0
    have h1f := handleInput_fields dt inp g0
    have h1ib := handleInput_inBounds dt inp g0 hib
    have h1cs : (g0.handleInput dt inp).canvasSize = ⟨W, H⟩ := by
      rw [h1f.2.2.2.2.1, hcs]
    have h1rs : (g0.handleInput dt inp).rng.seq = seq := by
      rw [h1f.2.2.2.2.2, hrs]
    have h2f := updateGameObjects_fields dt (g0.handleInput dt inp)
    have h2ib := updateGameObjects_inBounds dt (g0.handleInput dt inp)
      (by rw [h1cs]; exact hW) (by rw [h1cs]; exact hH) h1ib
    have h2cs : ((g0.handleInput dt inp).updateGameObjects dt).canvasSize = ⟨W, H⟩ := by
      rw [h2f.2.2.2.2.1, h1cs]
    have h2rs : ((g0.handleInput dt inp).updateGameObjects dt).rng.seq = seq := by
      rw [h2f.2.2.2.2.2, h1rs]
    have h3 := checkCollisions_pres ((g0.handleInput dt inp).updateGameObjects dt)
      (by rw [h2cs]; exact hW) (by rw [h2cs]; exact hH)
      (by intro k; rw [h2rs]; exact hseq k) h2ib
    refine ⟨?_, ?_, h3.2.2⟩
    · show (((g0.handleInput dt inp).updateGameObjects dt).checkCollisions).canvasSize = _
      rw [h3.1, h2cs]
    · show (((g0.handleInput dt inp).updateGameObjects dt).checkCollisions).rng.seq = _
      rw [h3.2.1, h2rs]
  | space hr ih =>
    obtain ⟨hcs, hrs, hib⟩ := ih
    rename_i g0
    have hks := keySpace_pres g0 (by rw [hcs]; exact hW) (by rw [hcs]; exact hH)
      (by intro k; rw [hrs]; exact hseq k) hib
    exact ⟨by rw [hks.1, hcs], by rw [hks.2.1, hrs], hks.2.2⟩
  | pkey hr ih =>
    obtain ⟨hcs, hrs, hib⟩ := ih
    rename_i g0
    have hkp := keyP_pres g0 hib
    exact ⟨by rw [hkp.1, hcs], by rw [hkp.2.1, hrs], hkp.2.2⟩

/-- C10: the implicit in-bounds invariant.  For a nonnegative canvas and any
deltaTime ≥ 0, every entity that moves in an update call ends inside the
closed canvas rectangle (an expired bullet keeps its position); and every
game state reachable from the constructor through ticks and key handlers,
with random draws in [0, 1), has all entity positions inside the canvas,
even after an arbitrarily large single-step deltaTime. -/
theorem inBounds_rule (W H dt : ℝ) (cs : Vec2) (s : Ship) (a : Asteroid) (b : Bullet)
    (seq : ℕ → ℝ) (g : Game) :
    (0 ≤ cs.x → 0 ≤ cs.y → 0 ≤ dt → inBox cs.x cs.y (Ship.update dt cs s).position) ∧
    (0 ≤ cs.x → 0 ≤ cs.y → 0 ≤ dt → inBox cs.x cs.y (Asteroid.update dt cs a).position) ∧
    (0 ≤ cs.x → 0 ≤ cs.y → 0 ≤ dt →
      (b.lifeTime + dt ≤ 2 → inBox cs.x cs.y (Bullet.update dt cs b).position) ∧
      (2 < b.lifeTime + dt → (Bullet.update dt cs b).position = b.position)) ∧
    (0 ≤ W → 0 ≤ H → (∀ n, 0 ≤ seq n ∧ seq n < 1) → Game.Reachable W H seq g →
      g.InBounds) := by
  refine ⟨?_, ?_, ?_, ?_⟩
  · intro hx hy _
    obtain ⟨p, hp⟩ := ship_update_pos dt cs s
    rw [hp]
    exact wrapPosition_inBox _ _ hx hy
  · intro hx hy _
    obtain ⟨p, hp⟩ := asteroid_update_pos dt cs a
    rw [hp]
    exact wrapPosition_inBox _ _ hx hy
  · intro hx hy _
    constructor
    · intro hle
      rw [bullet_update_eq, if_neg (not_lt.mpr hle)]
      exact wrapPosition_inBox _ _ hx hy
    · intro hgt
      rw [bullet_update_eq, if_pos hgt]
  · intro hW hH hseq hre
    exact (reachable_inBounds W H seq hW hH hseq g hre).2.2

/-- Witness for C10: the freshly constructed game on an 800 by 600 canvas
with the all-zero random stream has every entity inside the canvas. -/
theorem inBounds_rule_witness : (Game.init 800 600 (fun _ => 0)).InBounds :=
  (inBounds_rule 800 600 0 ⟨800, 600⟩ (Ship.init 0 0) (Asteroid.build 0 0 0 0 0 .large)
      (Bullet.build 0 0 0) (fun _ => 0) (Game.init 800 600 (fun _ => 0))).2.2.2
    (by norm_num) (by norm_num) (by intro n; norm_num) Game.Reachable.init

end
